import Mathlib

/-!
Shallow embedding of the EchoScribe media-preparation and analytics pipeline:

* `SimpleDurationExtractor` (duration probing over raw bytes),
* `ServerlessMediaProcessingService.splitAudio` (chunk planning),
* `TranscriptionOrchestrator` (`processFile`, `processFileWithProgress`,
  `processLargeFile`, `removeFillerWords`),
* `SpeechAnalyticsService.analyzeSpeech` and its sub-analyses.

Strings are modelled as Lean `String`/`List Char`; the specific regular
expressions appearing in the source (word-boundary delimited word sequences
with alternation, two negative lookaheads, and the punctuation clean-up
passes) are hand-compiled into explicit matchers below.  JS numbers are
modelled as `ℚ` (with `jsRound` for `Math.round`), byte buffers as `List ℕ`.
-/

namespace EchoScribe

abbrev Chars := List Char

/-- ASCII lower-casing, the effect of JS `toLowerCase` on the ASCII inputs
handled here. -/
def jsLowerChar (c : Char) : Char :=
  if 'A' ≤ c ∧ c ≤ 'Z' then Char.ofNat (c.toNat + 32) else c

/-- JS `\w` word character class: `[A-Za-z0-9_]`. -/
def isWordChar (c : Char) : Bool :=
  ('a' ≤ c ∧ c ≤ 'z') ∨ ('A' ≤ c ∧ c ≤ 'Z') ∨ ('0' ≤ c ∧ c ≤ '9') ∨ c = '_'

/-- JS `\s` whitespace class (ASCII part). -/
def isSpaceJS (c : Char) : Bool :=
  c = ' ' ∨ c = '\t' ∨ c = '\n' ∨ c = '\r' ∨ c = '\x0b' ∨ c = '\x0c'

/-- `dropWhile` never lengthens a list (helper for termination proofs). -/
theorem dropWhile_len_le (p : Char → Bool) (l : List Char) :
    (l.dropWhile p).length ≤ l.length :=
  (List.dropWhile_sublist (l := l) (p := p)).length_le

/-- Case-insensitive literal match: consumes the pattern literal (given in
lower case, possibly containing literal spaces) at the head of the input,
returning the number of characters consumed. -/
def matchLit : Chars → Chars → Option ℕ
  | [], _ => some 0
  | _ :: _, [] => none
  | p :: ps, c :: cs =>
    if jsLowerChar c = p then (matchLit ps cs).map (· + 1) else none

/-- `\b` test at the position after a match: the next character (if any) is
not a word character.  (All literals used here end in a word character.) -/
def boundaryAfter : Chars → Bool
  | [] => true
  | c :: _ => !isWordChar c

/-- Consume one-or-more `\s` characters (greedy), returning the count. -/
def matchWS1 (s : Chars) : Option ℕ :=
  let n := (s.takeWhile isSpaceJS).length
  if n = 0 then none else some n

/-- Matching engine for a hand-compiled regex of the shape
`\b(a₁|a₂|…)\s+(b₁|…)\s+…\b` : `alts` are the remaining alternatives of the
current slot (each alternative a literal, possibly containing a literal
space matched exactly), `rest` the remaining slots; slots are separated by
`\s+` and the whole match ends at a word boundary.  Returns the number of
characters consumed, trying alternatives in source order with backtracking,
exactly as the JS regex engine does for these patterns. -/
def matchSA : ℕ → List Chars → List (List Chars) → Chars → Option ℕ
  | 0, _, _, _ => none
  | _, [], _, _ => none
  | fuel + 1, a :: as, rest, s =>
    match matchLit a s with
    | none => matchSA fuel as rest s
    | some n =>
      match rest with
      | [] =>
        if boundaryAfter (s.drop n) then some n else matchSA fuel as [] s
      | slot' :: rest' =>
        match matchWS1 (s.drop n) with
        | none => matchSA fuel as (slot' :: rest') s
        | some w =>
          match matchSA fuel slot' rest' (s.drop (n + w)) with
          | some m => some (n + w + m)
          | none => matchSA fuel as (slot' :: rest') s

/-- Fuel bound for `matchSA`: the total number of literals in the pattern
(an upper bound on the alternation-backtracking depth). -/
def slotsFuel (slots : List (List Chars)) : ℕ :=
  slots.foldl (fun a slot => a + slot.length + 1) 1

/-- Match a whole slot-pattern (`\b`-delimited word-sequence regex) at the
head of the input, returning the characters consumed. -/
def matchSlots (slots : List (List Chars)) (s : Chars) : Option ℕ :=
  match slots with
  | [] => if boundaryAfter s then some 0 else none
  | slot :: rest => matchSA (slotsFuel slots) slot rest s

/-- A matcher takes "previous character is a word character" and the rest of
the input, returning the length of a match starting here.  The leading `\b`
of every pattern used in the source requires the previous character to be a
non-word character (or the string start). -/
abbrev Matcher := Bool → Chars → Option ℕ

/-- Matcher for a `\b`-delimited slot pattern. -/
def patMatcher (slots : List (List Chars)) : Matcher := fun prevW s =>
  if prevW then none else matchSlots slots s

/-- Negative-lookahead test `(?!\s+(alt₁|alt₂|…))`: true iff the lookahead
body matches (note: the alternatives are bare literals, not
boundary-delimited, exactly as in the source regexes). -/
def lookNeg (alts : List Chars) (s : Chars) : Bool :=
  match matchWS1 s with
  | none => false
  | some w => alts.any (fun a => (matchLit a (s.drop w)).isSome)

/-- Matcher for `\b<phrase>\b(?!\s+(alt…))` (the `sort of` / `kind of`
patterns of the analytics engine). -/
def patMatcherNeg (slots : List (List Chars)) (alts : List Chars) : Matcher :=
  fun prevW s =>
    if prevW then none else
    match matchSlots slots s with
    | some n => if lookNeg alts (s.drop n) then none else some n
    | none => none

/-!  Global scanning, following the JS `String.match`/`String.replace`
left-to-right non-overlapping semantics: try the pattern at each position,
on a match continue right after it.  All matchers here consume at least one
character on success (every literal is non-empty), so a `some 0` result is
treated as no match.  Each scanner is a structurally recursive state
machine: on a match of length `n + 1` it consumes the current character and
carries a skip counter `n` over the rest of the match. -/

/-- Helper for `countM` (`skip` = characters of the current match still to
pass over). -/
def countMGo (m : Matcher) : ℕ → Bool → Chars → ℕ
  | _, _, [] => 0
  | 0, prevW, c :: cs =>
    match m prevW (c :: cs) with
    | some (n + 1) => countMGo m n true cs + 1
    | _ => countMGo m 0 (isWordChar c) cs
  | k + 1, _, _ :: cs => countMGo m k true cs

/-- Count the non-overlapping matches of `m` (JS `text.match(re).length`),
starting with the given previous-character-is-word-character flag. -/
def countM (m : Matcher) (prevW : Bool) (s : Chars) : ℕ := countMGo m 0 prevW s

/-- Helper for `replaceM`. -/
def replaceMGo (m : Matcher) (repl : Chars) : ℕ → Bool → Chars → Chars
  | _, _, [] => []
  | 0, prevW, c :: cs =>
    match m prevW (c :: cs) with
    | some (n + 1) => repl ++ replaceMGo m repl n true cs
    | _ => c :: replaceMGo m repl 0 (isWordChar c) cs
  | k + 1, _, _ :: cs => replaceMGo m repl k true cs

/-- JS `text.replace(re, repl)` with a constant replacement string. -/
def replaceM (m : Matcher) (repl : Chars) (prevW : Bool) (s : Chars) : Chars :=
  replaceMGo m repl 0 prevW s

/-- Helper for `replaceFirstK` (`skip` = remaining characters of the current
match, `emit` = whether that match is kept verbatim). -/
def rfkGo (m : Matcher) : ℕ → Bool → ℕ → Bool → Chars → Chars
  | _, _, _, _, [] => []
  | 0, _, k, prevW, c :: cs =>
    match m prevW (c :: cs) with
    | some (n + 1) =>
      match k with
      | k' + 1 => rfkGo m n false k' true cs
      | 0 => c :: rfkGo m n true 0 true cs
    | _ => c :: rfkGo m 0 false k (isWordChar c) cs
  | skip + 1, emit, k, _, c :: cs =>
    if emit then c :: rfkGo m skip emit k true cs else rfkGo m skip emit k true cs

/-- JS `text.replace(re, callback)` with the stateful callback of the
discourse-marker pass: the first `k` matches are replaced by `''`, every
later match is returned unchanged. -/
def replaceFirstK (m : Matcher) (k : ℕ) (prevW : Bool) (s : Chars) : Chars :=
  rfkGo m 0 false k prevW s

/-- Helper for `scanPos`. -/
def scanPosGo (m : Matcher) : ℕ → Bool → Chars → ℕ → List (ℕ × ℕ)
  | _, _, [], _ => []
  | 0, prevW, c :: cs, abs =>
    match m prevW (c :: cs) with
    | some (n + 1) => (abs, n + 1) :: scanPosGo m n true cs (abs + 1)
    | _ => scanPosGo m 0 (isWordChar c) cs (abs + 1)
  | k + 1, _, _ :: cs, abs => scanPosGo m k true cs (abs + 1)

/-- The list of `(position, length)` of the non-overlapping matches of `m`,
with positions counted from `abs`. -/
def scanPos (m : Matcher) (prevW : Bool) (s : Chars) (abs : ℕ) : List (ℕ × ℕ) :=
  scanPosGo m 0 prevW s abs

/-- Helper for `delSegs` (`skip` = characters of the current segment still
to delete). -/
def delSegsGo : List (ℕ × ℕ) → ℕ → ℕ → Chars → Chars
  | _, _, _, [] => []
  | segs, k + 1, abs, _ :: cs => delSegsGo segs k (abs + 1) cs
  | [], 0, _, s => s
  | (p, l) :: rest, 0, abs, c :: cs =>
    if abs = p then delSegsGo rest (l - 1) (abs + 1) cs
    else c :: delSegsGo ((p, l) :: rest) 0 (abs + 1) cs

/-- Delete the given `(position, length)` segments (sorted, disjoint, with
positive lengths) from a string; `abs` is the absolute position of the head
of `s`. -/
def delSegs (segs : List (ℕ × ℕ)) (abs : ℕ) (s : Chars) : Chars :=
  delSegsGo segs 0 abs s

/-- The punctuation class `[,.!?;:]` of the clean-up regexes. -/
def isPunctCU (c : Char) : Bool :=
  c = ',' ∨ c = '.' ∨ c = '!' ∨ c = '?' ∨ c = ';' ∨ c = ':'

/-- Helper for `collapseWS` (`inRun` = a space has already been emitted for
the current whitespace run). -/
def cwsGo : Bool → Chars → Chars
  | _, [] => []
  | inRun, c :: cs =>
    if isSpaceJS c then
      if inRun then cwsGo true cs else ' ' :: cwsGo true cs
    else c :: cwsGo false cs

/-- `/\s+/g → ' '`: collapse each maximal whitespace run to one space. -/
def collapseWS (s : Chars) : Chars := cwsGo false s

/-- Scanner state machine for `/\s+([,.!?;:])/g → '$1'`: `pend` holds the
(reversed) whitespace run read so far; a following punctuation character
deletes the run, anything else flushes it. -/
def dwbGo : Chars → Chars → Chars
  | pend, [] => pend.reverse
  | pend, c :: cs =>
    if isSpaceJS c then dwbGo (c :: pend) cs
    else if pend.isEmpty then c :: dwbGo [] cs
    else if isPunctCU c then c :: dwbGo [] cs
    else pend.reverse ++ c :: dwbGo [] cs

/-- `/\s+([,.!?;:])/g → '$1'`: delete whitespace directly before a
punctuation character. -/
def dropWSBeforePunct (s : Chars) : Chars := dwbGo [] s

/-- Helper for `dropWSBetweenPunct`: the state holds the pending
punctuation character and the (reversed) whitespace run read after it. -/
def dwpGo : Option (Char × Chars) → Chars → Chars
  | none, [] => []
  | some (p, ws), [] => p :: ws.reverse
  | none, c :: cs => if isPunctCU c then dwpGo (some (c, [])) cs else c :: dwpGo none cs
  | some (p, ws), c :: cs =>
    if isSpaceJS c then dwpGo (some (p, c :: ws)) cs
    else if isPunctCU c then p :: c :: dwpGo none cs
    else p :: ws.reverse ++ c :: dwpGo none cs

/-- `/([,.!?;:])\s*([,.!?;:])/g → '$1$2'`: delete whitespace between two
punctuation characters (the pair is consumed, scanning resumes after it). -/
def dropWSBetweenPunct (s : Chars) : Chars := dwpGo none s

/-- `/^\s*[,.!?;:]\s*/ → ''`: one leading-punctuation strip (the `^` anchor
fires at most once even under the `g` flag). -/
def stripLeadingPunct (s : Chars) : Chars :=
  match s.dropWhile isSpaceJS with
  | p :: r => if isPunctCU p then r.dropWhile isSpaceJS else s
  | [] => s

/-- JS `String.trim`. -/
def trimJS (s : Chars) : Chars :=
  ((s.dropWhile isSpaceJS).reverse.dropWhile isSpaceJS).reverse

/-! ### Tokenisation -/

/-- Helper for `splitWS`: `acc` is the reversed current segment, `skip` is
true while passing over a whitespace run whose segment is already emitted. -/
def splitWSGo : Bool → Chars → Chars → List Chars
  | _, acc, [] => [acc.reverse]
  | skip, acc, c :: cs =>
    if isSpaceJS c then
      if skip then splitWSGo true [] cs
      else acc.reverse :: splitWSGo true [] cs
    else splitWSGo false (c :: acc) cs

/-- JS `text.split(/\s+/)`: split at each maximal whitespace run, keeping
empty segments at the ends (as JS does). -/
def splitWS (s : Chars) : List Chars := splitWSGo false [] s

/-- `extractWords` (speech-analytics.service):
`text.split(/\s+/).filter(word => word.length > 0)`. -/
def extractWords (s : Chars) : List Chars :=
  (splitWS s).filter (fun w => !w.isEmpty)

/-- ASCII lower-casing of a whole string (JS `toLowerCase`). -/
def lowerStr (s : Chars) : Chars := s.map jsLowerChar

/-- `word.toLowerCase().replace(/[^\w]/g, '')`. -/
def cleanWord (w : Chars) : Chars := (lowerStr w).filter isWordChar

/-- JS `Math.round` on rationals: `⌊q + 1/2⌋` (round half up). -/
def jsRound (q : ℚ) : ℤ := ⌊q + 1 / 2⌋

/-! ## TranscriptionOrchestrator.removeFillerWords -/

/-- Matcher for a single `\b`-delimited word or phrase (a phrase literal
contains its spaces verbatim, as in the source regexes built from string
literals). -/
def wordPat (w : String) : Matcher := patMatcher [[w.data]]

/-- The pure filler sounds of `removeFillerWords` step 1 (and of
`PURE_FILLER_SOUNDS` in the analytics service — the two lists coincide). -/
def pureFillers : List String :=
  ["um", "uh", "ah", "er", "eh", "hmm", "mm", "mhm", "uhm"]

/-- The contextual `fillerPatterns` of `removeFillerWords` step 2, in source
order, hand-compiled from the regex literals. -/
def rfwPatterns : List Matcher :=
  [ patMatcher [["like".data],
      ["um".data, "uh".data, "ah".data, "er".data,
       "and then".data, "when i".data, "so i".data]]
  , patMatcher [["um".data, "uh".data, "ah".data, "er".data,
       "like".data, "well".data], ["so".data]]
  , patMatcher [["so".data], ["um".data, "uh".data, "ah".data, "er".data]]
  , patMatcher [["you know".data]]
  , patMatcher [["i mean".data]]
  , patMatcher [["let me think".data]]
  , patMatcher [["how do i say".data]]
  , patMatcher [["what do you call it".data]]
  , patMatcher [["sort of".data], ["like".data, "um".data, "uh".data]]
  , patMatcher [["kind of".data], ["like".data, "um".data, "uh".data]] ]

/-- Step 2 of `removeFillerWords`, one pattern: the source callback is
`(match, ...groups) => groups.length > 0 ? groups[groups.length - 1] || '' : ''`.
In JS the rest parameter `groups` receives the capture groups *followed by
the match offset and the whole subject string*, so `groups.length` is never
0 and `groups[groups.length - 1]` is always the whole subject string (which
is non-empty whenever there is a match).  Each match is therefore replaced
by the entire subject text of that `replace` call. -/
def applyBuggyPattern (t : Chars) (m : Matcher) : Chars := replaceM m t false t

/-- The discourse markers of `removeFillerWords` step 3. -/
def rfwDiscourseMarkers : List String :=
  ["well", "okay", "right", "actually", "basically"]

/-- Step 3 of `removeFillerWords` for one marker: when the marker occurs
more than 4 times, remove all but the last 2 occurrences (the stateful
callback deletes the first `count - 2` matches of the left-to-right scan
and returns the later ones unchanged). -/
def stripDiscourse (t : Chars) (w : String) : Chars :=
  let n := countM (wordPat w) false t
  if 4 < n then replaceFirstK (wordPat w) (n - 2) false t else t

/-- Step 4 of `removeFillerWords`: whitespace/punctuation clean-up. -/
def cleanupSpacing (t : Chars) : Chars :=
  trimJS (stripLeadingPunct (dropWSBetweenPunct (dropWSBeforePunct (collapseWS t))))

/-- `TranscriptionOrchestrator.removeFillerWords` (transcription-orchestrator
service): pure-filler removal, contextual pattern replacement (with the
rest-parameter slip described at `applyBuggyPattern`), discourse-marker
budget stripping, and spacing clean-up. -/
def removeFillerWords (text : String) : String :=
  let step1 := pureFillers.foldl (fun acc w => replaceM (wordPat w) [] false acc) text.data
  let step2 := rfwPatterns.foldl applyBuggyPattern step1
  let step3 := rfwDiscourseMarkers.foldl stripDiscourse step2
  String.mk (cleanupSpacing step3)


/-! ## SpeechAnalyticsService (speech-analytics.service) -/

structure PaceAnalysis where
  paceCategory : String
  paceScore : ℚ
  paceRecommendation : String
deriving Repr, DecidableEq

structure FillerWordAnalysis where
  totalFillerWords : ℕ
  fillerWordPercentage : ℚ
  fillerWordScore : ℚ
  fillerWordFeedback : String
  fillerWordCounts : List (String × ℕ)
deriving Repr, DecidableEq

structure VocabularyAnalysis where
  uniqueWords : ℕ
  vocabularyDiversity : ℚ
  vocabularyScore : ℚ
  vocabularyFeedback : String
  wordComplexityDistribution : ℕ × ℕ × ℕ
deriving Repr, DecidableEq

structure ConfidenceAnalysis where
  confidenceScore : ℚ
  confidenceFeedback : String
  confidenceWords : ℕ
  uncertaintyWords : ℕ
deriving Repr, DecidableEq

structure SpeechAnalytics where
  overallScore : ℚ
  totalWords : ℕ
  wordsPerMinute : ℚ
  paceAnalysis : PaceAnalysis
  fillerWordAnalysis : FillerWordAnalysis
  vocabularyAnalysis : VocabularyAnalysis
  confidenceAnalysis : ConfidenceAnalysis
  recommendations : List String
deriving Repr, DecidableEq

/-- `DISCOURSE_MARKERS` of the analytics service. -/
def discourseMarkersA : List String :=
  ["well", "okay", "right", "now", "alright", "yeah"]

/-- `HEDGE_WORDS` of the analytics service. -/
def hedgeWords : List String :=
  ["basically", "actually", "literally", "totally", "really"]

/-- `FILLER_PATTERNS` of the analytics service: `(word, matcher)` pairs in
source order, hand-compiled from the regex literals (the two comparison
patterns carry their negative lookaheads). -/
def analyticsPatterns : List (String × Matcher) :=
  [ ("like", patMatcher [["like".data],
      ["um".data, "uh".data, "ah".data, "er".data, "so".data, "and".data,
       "i".data, "you".data, "we".data, "they".data, "it".data, "this".data,
       "that".data, "when".data, "where".data, "what".data]])
  , ("so", patMatcher [["um".data, "uh".data, "ah".data, "er".data,
       "like".data, "yeah".data, "well".data, "okay".data], ["so".data]])
  , ("so", patMatcher [["so".data],
      ["um".data, "uh".data, "ah".data, "er".data, "like".data, "yeah".data]])
  , ("you know", patMatcher [["you know".data]])
  , ("i mean", patMatcher [["i mean".data]])
  , ("sort of", patMatcherNeg [["sort of".data]]
      ["like".data, "similar".data, "the same".data])
  , ("kind of", patMatcherNeg [["kind of".data]]
      ["like".data, "similar".data, "the same".data, "person".data, "thing".data])
  , ("let me think", patMatcher [["let me think".data]])
  , ("how do i say", patMatcher [["how do i say".data]])
  , ("what do you call it", patMatcher [["what do you call it".data]]) ]

/-- `CONFIDENCE_WORDS` of the analytics service. -/
def confidenceWordList : List String :=
  ["definitely", "certainly", "absolutely", "clearly", "obviously",
   "without doubt", "undoubtedly", "precisely", "exactly", "specifically",
   "conclusively", "positively", "unquestionably", "confident", "sure",
   "convinced", "guarantee", "promise", "assure", "affirm"]

/-- `UNCERTAINTY_WORDS` of the analytics service. -/
def uncertaintyWordList : List String :=
  ["maybe", "perhaps", "possibly", "might", "could be", "i think",
   "i believe", "i guess", "probably", "likely", "seems like",
   "appears to", "i suppose", "presumably", "apparently", "unsure",
   "uncertain", "not sure", "hard to say", "difficult to tell"]

/-- Matcher built as the source does for confidence/uncertainty entries:
`new RegExp(`\\b` + word.replace(/\s+/g, `\\s+`) + `\\b`, 'gi')`,
i.e. the phrase split at spaces with `\s+` between the words. -/
def phrasePat (p : String) : Matcher :=
  patMatcher ((p.splitOn " ").map (fun w => [w.data]))

/-- Insertion-ordered `Record<string, number>` upsert. -/
def upsert (l : List (String × ℕ)) (k : String) (n : ℕ) : List (String × ℕ) :=
  if l.any (fun e => e.1 = k) then
    l.map (fun e => if e.1 = k then (e.1, e.2 + n) else e)
  else l ++ [(k, n)]

/-- `analyzePace`. -/
def analyzePace (wordsPerMinute : ℚ) : PaceAnalysis :=
  if 140 ≤ wordsPerMinute ∧ wordsPerMinute ≤ 180 then
    { paceCategory := "Optimal", paceScore := 10,
      paceRecommendation := "Excellent speaking pace! You maintain an ideal rhythm for audience comprehension." }
  else if wordsPerMinute < 100 then
    { paceCategory := "Too Slow", paceScore := 4,
      paceRecommendation := "Consider speaking faster to maintain audience engagement and energy." }
  else if wordsPerMinute < 140 then
    { paceCategory := "Slow", paceScore := 6,
      paceRecommendation := "Try to increase your speaking pace slightly for better flow and engagement." }
  else if wordsPerMinute ≤ 200 then
    { paceCategory := "Fast", paceScore := 7,
      paceRecommendation := "Good pace, but consider slowing down slightly for better clarity." }
  else
    { paceCategory := "Too Fast", paceScore := 4,
      paceRecommendation := "Slow down to ensure your audience can follow and understand your message." }

/-- The filler-percentage score/feedback band table of `analyzeFillerWords`. -/
def fillerBand (p : ℚ) : ℚ × String :=
  if p < 1 then (10, "Excellent! You maintain very clean speech with minimal filler words.")
  else if p < 2 then (8, "Great job keeping filler words to a minimum.")
  else if p < 4 then (6, "Good control, but try to reduce filler words for more professional delivery.")
  else if p < 7 then (4, "Practice pausing instead of using filler words to improve clarity.")
  else (2, "Focus on reducing filler words significantly. Practice speaking more slowly and deliberately.")

/-- `analyzeFillerWords`: pure-filler counting, threshold-gated discourse /
hedge counting, contextual pattern counting, then the band table. -/
def analyzeFillerWords (words : List Chars) : FillerWordAnalysis :=
  let fullText := lowerStr (List.intercalate [' '] words)
  let pureStep : List (String × ℕ) × ℕ := words.foldl
    (fun acc w =>
      let cw := cleanWord w
      if pureFillers.any (fun f => f.data = cw) then
        (upsert acc.1 (String.mk cw) 1, acc.2 + 1)
      else acc)
    ([], 0)
  let overuseThreshold : ℕ := if 100 < words.length then 3 else 2
  let markerStep : List (String × ℕ) × ℕ :=
    (discourseMarkersA ++ hedgeWords).foldl
      (fun acc m =>
        let count := words.countP (fun w => cleanWord w = m.data)
        if overuseThreshold < count then
          (upsert acc.1 m (count - overuseThreshold), acc.2 + (count - overuseThreshold))
        else acc)
      pureStep
  let patStep : List (String × ℕ) × ℕ :=
    analyticsPatterns.foldl
      (fun acc pm =>
        let nMatches := countM pm.2 false fullText
        if 0 < nMatches then (upsert acc.1 pm.1 nMatches, acc.2 + nMatches) else acc)
      markerStep
  let totalFillerWords := patStep.2
  let fillerWordPercentage : ℚ :=
    if 0 < words.length then (totalFillerWords : ℚ) / (words.length : ℚ) * 100 else 0
  let band := fillerBand fillerWordPercentage
  { totalFillerWords := totalFillerWords
    fillerWordPercentage := fillerWordPercentage
    fillerWordScore := band.1
    fillerWordFeedback := band.2
    fillerWordCounts := patStep.1 }

/-- The diversity score/feedback band table of `analyzeVocabulary`. -/
def vocabBand (d : ℚ) : ℚ × String :=
  if 7 / 10 < d then (10, "Outstanding vocabulary diversity! You use a rich variety of words.")
  else if 1 / 2 < d then (8, "Good vocabulary diversity. Your word choice keeps the content engaging.")
  else if 35 / 100 < d then (6, "Decent vocabulary, but try to vary your word choices more for better engagement.")
  else if 1 / 5 < d then (4, "Limited vocabulary diversity. Practice using more varied expressions and synonyms.")
  else (2, "Very repetitive vocabulary. Focus on expanding your word choices and expressions.")

/-- `analyzeWordComplexity`: word counts in the Simple (1-4), Medium (5-7)
and Complex (8+) letter tiers. -/
def analyzeWordComplexity (words : List Chars) : ℕ × ℕ × ℕ :=
  words.foldl
    (fun acc w =>
      if w.length ≤ 4 then (acc.1 + 1, acc.2.1, acc.2.2)
      else if w.length ≤ 7 then (acc.1, acc.2.1 + 1, acc.2.2)
      else (acc.1, acc.2.1, acc.2.2 + 1))
    (0, 0, 0)

/-- `analyzeVocabulary`. -/
def analyzeVocabulary (words : List Chars) : VocabularyAnalysis :=
  let cleanWords := (words.map cleanWord).filter (fun w => !w.isEmpty)
  let uniqueWords := cleanWords.dedup.length
  let vocabularyDiversity : ℚ :=
    if 0 < cleanWords.length then (uniqueWords : ℚ) / (cleanWords.length : ℚ) else 0
  let band := vocabBand vocabularyDiversity
  { uniqueWords := uniqueWords
    vocabularyDiversity := vocabularyDiversity
    vocabularyScore := band.1
    vocabularyFeedback := band.2
    wordComplexityDistribution := analyzeWordComplexity cleanWords }

/-- The feedback band of `analyzeConfidence` (keyed on the clamped score). -/
def confidenceFeedbackOf (score : ℚ) : String :=
  if 9 ≤ score then "You speak with exceptional confidence and authority!"
  else if 7 ≤ score then "Good confidence level. Your assertions are clear and strong."
  else if 5 ≤ score then "Moderate confidence. Consider using more definitive language."
  else if 3 ≤ score then "Work on speaking more confidently. Reduce uncertain language."
  else "Focus on building confidence. Use stronger, more assertive statements."

/-- `analyzeConfidence`, applied (as in the source) to the lower-cased raw
text.  `totalWords` uses `textLower.split(/\s+/).length` (which, unlike
`extractWords`, keeps empty boundary segments). -/
def analyzeConfidence (textLower : Chars) : ConfidenceAnalysis :=
  let confidenceWords :=
    confidenceWordList.foldl (fun acc w => acc + countM (phrasePat w) false textLower) 0
  let uncertaintyWords :=
    uncertaintyWordList.foldl (fun acc w => acc + countM (phrasePat w) false textLower) 0
  let totalWords : ℚ := ((splitWS textLower).length : ℚ)
  let confidenceRatio : ℚ := (confidenceWords : ℚ) / max (totalWords / 100) 1
  let uncertaintyRatio : ℚ := (uncertaintyWords : ℚ) / max (totalWords / 100) 1
  let rawScore : ℚ := 6 + min (confidenceRatio * 2) 3 - min (uncertaintyRatio * 2) 4
  let confidenceScore : ℚ := ((max 1 (min 10 (jsRound rawScore)) : ℤ) : ℚ)
  { confidenceScore := confidenceScore
    confidenceFeedback := confidenceFeedbackOf confidenceScore
    confidenceWords := confidenceWords
    uncertaintyWords := uncertaintyWords }

/-- `calculateOverallScore`: the fixed-weight sum (pace 0.25, fillers 0.30,
vocabulary 0.25, confidence 0.20) rounded to one decimal. -/
def calculateOverallScore (pace : PaceAnalysis) (fillers : FillerWordAnalysis)
    (vocabulary : VocabularyAnalysis) (confidence : ConfidenceAnalysis) : ℚ :=
  let weightedScore : ℚ :=
    pace.paceScore * (25 / 100) + fillers.fillerWordScore * (30 / 100) +
    vocabulary.vocabularyScore * (25 / 100) + confidence.confidenceScore * (20 / 100)
  ((jsRound (weightedScore * 10) : ℚ)) / 10

/-- Stable descending sort by count (JS `sort(([,a],[,b]) => b - a)`,
stable on modern engines). -/
def sortByCountDesc (l : List (String × ℕ)) : List (String × ℕ) :=
  List.insertionSort (fun a b => b.2 < a.2) l

/-- `generateRecommendations`. -/
def generateRecommendations (pace : PaceAnalysis) (fillers : FillerWordAnalysis)
    (vocabulary : VocabularyAnalysis) (confidence : ConfidenceAnalysis) : List String :=
  let base : List String := []
  let base := if pace.paceScore < 7 then
      base ++ ["🏃\u200d♂️ Pace Improvement: " ++ pace.paceRecommendation]
    else base
  let base := if fillers.fillerWordScore < 7 then
      let topFillers := ((sortByCountDesc fillers.fillerWordCounts).take 2).map (fun e => e.1)
      if 0 < topFillers.length then
        base ++ ["🚫 Reduce Filler Words: Focus on eliminating \"" ++
                 String.intercalate "\", \"" topFillers ++ "\" from your speech"]
      else base
    else base
  let base := if vocabulary.vocabularyScore < 7 then
      base ++ ["📚 Expand Vocabulary: " ++ vocabulary.vocabularyFeedback]
    else base
  let base := if confidence.confidenceScore < 7 then
      base ++ ["💪 Boost Confidence: " ++ confidence.confidenceFeedback]
    else base
  let base := base ++ ["🎯 Practice Regularly: Record yourself speaking daily to track improvement",
                       "📖 Study Great Speakers: Watch TED talks and note speaking techniques"]
  let hasPaceOrFiller := base.any (fun r =>
      decide ("🏃\u200d♂️".data <:+: r.data) ∨ decide ("🚫".data <:+: r.data))
  if hasPaceOrFiller then base
  else base ++ ["🌟 Keep it Up: Your speaking skills are developing well!"]

/-- `analyzeSpeech`: the top-level analysis (the source also extracts
sentences, but never uses them). -/
def analyzeSpeech (text : String) (durationMinutes : ℚ) : SpeechAnalytics :=
  let words := extractWords text.data
  let totalWords := words.length
  let wordsPerMinute : ℚ :=
    if 0 < durationMinutes then (totalWords : ℚ) / durationMinutes else 0
  let paceAnalysis := analyzePace wordsPerMinute
  let fillerWordAnalysis := analyzeFillerWords words
  let vocabularyAnalysis := analyzeVocabulary words
  let confidenceAnalysis := analyzeConfidence (lowerStr text.data)
  let overallScore := calculateOverallScore paceAnalysis fillerWordAnalysis
    vocabularyAnalysis confidenceAnalysis
  { overallScore := overallScore
    totalWords := totalWords
    wordsPerMinute := wordsPerMinute
    paceAnalysis := paceAnalysis
    fillerWordAnalysis := fillerWordAnalysis
    vocabularyAnalysis := vocabularyAnalysis
    confidenceAnalysis := confidenceAnalysis
    recommendations := generateRecommendations paceAnalysis fillerWordAnalysis
      vocabularyAnalysis confidenceAnalysis }


/-! ## ServerlessMediaProcessingService.splitAudio — chunk planning -/

/-- The planned windows of `splitAudio` for total duration `D` (seconds)
and chunk ceiling `C = chunkDurationMinutes * 60`:
`numChunks = Math.ceil(D / C)` iterations with `-ss (i * C) -t C`
(window `i` starts at `i * C` and has planned length `C`; the engine
truncates the last window at the end of the input). -/
def chunkWindows (D C : ℚ) : List (ℚ × ℚ) :=
  (List.range (⌈D / C⌉).toNat).map (fun (i : ℕ) => ((i : ℚ) * C, C))

/-- Result shape of the planning part of `splitAudio`: either the single
whole-range input (no split) or the list of planned windows. -/
inductive SplitPlan where
  | whole : SplitPlan
  | windows : List (ℚ × ℚ) → SplitPlan
deriving Repr, DecidableEq

/-- The planning part of `ServerlessMediaProcessingService.splitAudio`:
return the input as a single chunk when
`totalDuration <= chunkDurationMinutes * 60`, otherwise plan
`Math.ceil(totalDuration / chunkDuration)` windows of length
`chunkDuration` starting at `i * chunkDuration`.  (The materialisation of
each window is the external FFmpeg engine.) -/
def splitAudioPlan (totalDuration chunkDurationMinutes : ℚ) : SplitPlan :=
  if totalDuration ≤ chunkDurationMinutes * 60 then .whole
  else .windows (chunkWindows totalDuration (chunkDurationMinutes * 60))

/-! ## TranscriptionOrchestrator -/

structure MediaInfo where
  duration : ℚ
  format : String
  hasAudio : Bool
  hasVideo : Bool
  sampleRate : Option ℕ
  channels : Option ℕ
deriving Repr, DecidableEq

/-- `TranscriptionConfig` (types/transcription). -/
structure TranscriptionConfig where
  language : Option String := none
  includeTimestamps : Option Bool := none
  removeFillerWords : Option Bool := none
  chunkDuration : Option ℚ := none
  maxRetries : Option ℕ := none
deriving Repr, DecidableEq

/-- `TranscriptionApiResponse` (types/transcription); optional fields are
`Option`, a field absent from a response object is `none`. -/
structure TranscriptionApiResponse where
  success : Bool
  transcription : String
  rawTranscription : Option String
  fileName : String
  duration : Option ℚ
  analytics : Option SpeechAnalytics
  fillerWordsRemoved : Option Bool
  error : Option String
deriving Repr, DecidableEq

/-- The external collaborators of the orchestrator, as oracles: a failing
call is `Except.error` with its message (a thrown `Error`).  Audio buffers
enter the orchestrator only through their byte length (they are otherwise
passed through to the oracles), so buffers are modelled by their length,
and `transcribe i` is the outcome of `transcribeWithRetry` for the `i`-th
transcription call of the job (retries exhausted ⇒ `error`). -/
structure OrchestratorEnv where
  getMediaInfo : Except String MediaInfo
  extractAudio : Except String ℕ
  optimizeAudio : Except String ℕ
  splitAudio : ℚ → Except String (List ℕ)
  transcribe : ℕ → Except String String

/-- Gemini payload ceiling: `20 * 1024 * 1024` bytes. -/
def maxSize : ℕ := 20 * 1024 * 1024

/-- The chunk loop of the oversized-payload branch of `processFile`: an
oversized chunk appends a placeholder (with trailing space) and is skipped;
otherwise the transcription result is appended, prefixed with a space when
`i > 0`.  A transcription failure is not caught here and aborts the job. -/
def oversizedLoop (env : OrchestratorEnv) : ℕ → String → List ℕ → Except String String
  | _, acc, [] => .ok acc
  | i, acc, len :: rest =>
    if maxSize < len then
      oversizedLoop env (i + 1)
        (acc ++ "[Chunk " ++ toString (i + 1) ++ " too large to process] ") rest
    else do
      let result ← env.transcribe i
      oversizedLoop env (i + 1) (acc ++ (if 0 < i then " " else "") ++ result) rest

/-- The chunk loop of `processLargeFile`: each chunk is transcribed inside
its own `try`; a failure contributes
`"[Chunk (i+1) transcription failed]"` at that index and the loop
continues. -/
def largeFileLoop (env : OrchestratorEnv) : ℕ → List ℕ → List String
  | _, [] => []
  | i, _ :: rest =>
    (match env.transcribe i with
     | .ok result => result
     | .error _ => "[Chunk " ++ toString (i + 1) ++ " transcription failed]") ::
    largeFileLoop env (i + 1) rest

/-- `processLargeFile`: split, transcribe each chunk (failure-tolerant),
join the results with single spaces in index order. -/
def processLargeFile (env : OrchestratorEnv) (chunkDurationMinutes : ℚ) :
    Except String String := do
  let chunks ← env.splitAudio chunkDurationMinutes
  .ok (String.intercalate " " (largeFileLoop env 0 chunks))

/-- The chunk loop of `processFileWithProgress`: transcription results are
appended in index order with a separating space, but there is no per-chunk
`try` — a chunk failure aborts the whole job. -/
def progressLoop (env : OrchestratorEnv) : ℕ → String → List ℕ → Except String String
  | _, acc, [] => .ok acc
  | i, acc, _ :: rest => do
    let result ← env.transcribe i
    progressLoop env (i + 1) (acc ++ (if 0 < i then " " else "") ++ result) rest

/-- The `try` body of `processFile` (transcription-orchestrator service):
media probe, audio extraction/optimisation, the oversized-payload early
return (5-minute chunks, no raw/fillerWordsRemoved fields), else the
duration-based chunk split (10-minute chunks) or single transcription,
analytics on the raw text, and optional display filtering. -/
def processFileE (env : OrchestratorEnv) (fileName : String)
    (config : TranscriptionConfig) : Except String TranscriptionApiResponse := do
  let mediaInfo ← env.getMediaInfo
  if !mediaInfo.hasAudio then
    .error "File does not contain audio that can be transcribed"
  else do
  let audioLen ← if mediaInfo.hasVideo then env.extractAudio else env.optimizeAudio
  if maxSize < audioLen then do
    let chunks ← env.splitAudio 5
    let transcriptionText ← oversizedLoop env 0 "" chunks
    .ok { success := true
          transcription := transcriptionText
          rawTranscription := none
          fileName := fileName
          duration := some (mediaInfo.duration / 60)
          analytics := some (analyzeSpeech transcriptionText (mediaInfo.duration / 60))
          fillerWordsRemoved := none
          error := none }
  else do
  let transcriptionText ←
    if 10 * 60 < mediaInfo.duration then processLargeFile env 10
    else env.transcribe 0
  let durationMinutes := mediaInfo.duration / 60
  let analytics := analyzeSpeech transcriptionText durationMinutes
  let displayText :=
    if config.removeFillerWords.getD false then removeFillerWords transcriptionText
    else transcriptionText
  .ok { success := true
        transcription := displayText
        rawTranscription := some transcriptionText
        fileName := fileName
        duration := some durationMinutes
        analytics := some analytics
        fillerWordsRemoved := some (config.removeFillerWords.getD false)
        error := none }

/-- `processFile`: the `try` body with its `catch`, which converts any
thrown error into the failure shape
`{ success: false, transcription: '', fileName, error }`. -/
def processFile (env : OrchestratorEnv) (fileName : String)
    (config : TranscriptionConfig) : TranscriptionApiResponse :=
  match processFileE env fileName config with
  | .ok r => r
  | .error e =>
    { success := false, transcription := "", rawTranscription := none
      fileName := fileName, duration := none, analytics := none
      fillerWordsRemoved := none, error := some e }

/-- The `try` body of `processFileWithProgress`: like `processFileE` but
with no oversized-payload branch and no per-chunk failure tolerance (the
progress callback is an observability side-channel and is not modelled). -/
def processFileWithProgressE (env : OrchestratorEnv) (fileName : String)
    (config : TranscriptionConfig) : Except String TranscriptionApiResponse := do
  let mediaInfo ← env.getMediaInfo
  if !mediaInfo.hasAudio then
    .error "File does not contain audio that can be transcribed"
  else do
  let _audioLen ← if mediaInfo.hasVideo then env.extractAudio else env.optimizeAudio
  let transcriptionText ←
    if 10 * 60 < mediaInfo.duration then do
      let chunks ← env.splitAudio 10
      progressLoop env 0 "" chunks
    else env.transcribe 0
  let durationMinutes := mediaInfo.duration / 60
  let analytics := analyzeSpeech transcriptionText durationMinutes
  let displayText :=
    if config.removeFillerWords.getD false then removeFillerWords transcriptionText
    else transcriptionText
  .ok { success := true
        transcription := displayText
        rawTranscription := some transcriptionText
        fileName := fileName
        duration := some durationMinutes
        analytics := some analytics
        fillerWordsRemoved := some (config.removeFillerWords.getD false)
        error := none }

/-- `processFileWithProgress`: the `try` body with its `catch`. -/
def processFileWithProgress (env : OrchestratorEnv) (fileName : String)
    (config : TranscriptionConfig) : TranscriptionApiResponse :=
  match processFileWithProgressE env fileName config with
  | .ok r => r
  | .error e =>
    { success := false, transcription := "", rawTranscription := none
      fileName := fileName, duration := none, analytics := none
      fillerWordsRemoved := none, error := some e }


/-! ## SimpleDurationExtractor (simple-duration-extractor) -/

/-- A byte buffer: the byte values of a Node `Buffer`. -/
abbrev ByteBuf := List ℕ

structure MediaDurationInfo where
  duration : ℚ
  isEstimated : Bool
deriving Repr, DecidableEq

/-- `Buffer.readUInt32LE` — out-of-range offsets throw (`RangeError`). -/
def readU32LE (b : ByteBuf) (i : ℕ) : Except Unit ℕ :=
  if i + 4 ≤ b.length then
    .ok (b.getD i 0 + 256 * b.getD (i + 1) 0 + 65536 * b.getD (i + 2) 0 +
         16777216 * b.getD (i + 3) 0)
  else .error ()

/-- `Buffer.readUInt32BE`. -/
def readU32BE (b : ByteBuf) (i : ℕ) : Except Unit ℕ :=
  if i + 4 ≤ b.length then
    .ok (16777216 * b.getD i 0 + 65536 * b.getD (i + 1) 0 +
         256 * b.getD (i + 2) 0 + b.getD (i + 3) 0)
  else .error ()

/-- `Buffer.readUInt8`. -/
def readU8 (b : ByteBuf) (i : ℕ) : Except Unit ℕ :=
  if i < b.length then .ok (b.getD i 0) else .error ()

/-- `buffer.toString('ascii', i, j)`: range-clamped, each byte masked to
7 bits; never throws. -/
def toAscii (b : ByteBuf) (i j : ℕ) : String :=
  String.mk (((b.drop i).take (j - i)).map (fun n => Char.ofNat (n % 128)))

/-- JS `parseInt(s)` (radix 10): skip whitespace, optional sign, a digit
prefix; `none` models `NaN`. -/
def parseIntJS (s : String) : Option ℤ :=
  let t := s.data.dropWhile isSpaceJS
  let signed : Bool × Chars :=
    match t with
    | '-' :: r => (true, r)
    | '+' :: r => (false, r)
    | r => (false, r)
  let digits := signed.2.takeWhile (fun c => '0' ≤ c ∧ c ≤ '9')
  if digits.isEmpty then none
  else
    let v : ℤ := digits.foldl (fun a c => a * 10 + ((c.toNat - '0'.toNat : ℕ) : ℤ)) 0
    some (if signed.1 then -v else v)

/-- Inner `data`-chunk loop of `extractWavDuration`: walk sub-chunks from
`dataOffset` while `dataOffset < length - 8`, reading a 4-byte id and a
4-byte little-endian size and advancing by `8 + size`; on the `data` chunk
return `dataSize / byteRate`.  `.error` is normal loop exit (the reads are
in bounds under the loop guard).  `fuel` only bounds the recursion; each
iteration advances by at least 8, so `b.length` fuel always suffices. -/
def wavFindData (b : ByteBuf) (byteRate : ℕ) : ℕ → ℕ → Except Unit ℚ
  | 0, _ => .error ()
  | fuel + 1, dataOffset =>
    if dataOffset + 8 < b.length then do
      let dataSize ← readU32LE b (dataOffset + 4)
      if toAscii b dataOffset (dataOffset + 4) = "data" then
        .ok ((dataSize : ℚ) / (byteRate : ℚ))
      else wavFindData b byteRate fuel (dataOffset + 8 + dataSize)
    else .error ()

/-- Outer chunk walk of `extractWavDuration` from offset 12: on the `fmt `
chunk read `sampleRate` (offset+12) and `byteRate` (offset+16) — these
reads can be out of range, which in the source throws into the
function-level `catch`; when both are positive, search for the `data`
chunk from `offset + 8 + chunkSize`; if the inner loop exits, or on any
other chunk, advance by `8 + chunkSize`.  Loop exit models the source's
`throw new Error('Could not parse WAV duration')`. -/
def wavWalk (b : ByteBuf) : ℕ → ℕ → Except Unit ℚ
  | 0, _ => .error ()
  | fuel + 1, offset =>
    if offset + 8 < b.length then do
      let chunkSize ← readU32LE b (offset + 4)
      if toAscii b offset (offset + 4) = "fmt " then do
        let sampleRate ← readU32LE b (offset + 12)
        let byteRate ← readU32LE b (offset + 16)
        if 0 < sampleRate ∧ 0 < byteRate then
          match wavFindData b byteRate b.length (offset + 8 + chunkSize) with
          | .ok q => .ok q
          | .error _ => wavWalk b fuel (offset + 8 + chunkSize)
        else wavWalk b fuel (offset + 8 + chunkSize)
      else wavWalk b fuel (offset + 8 + chunkSize)
    else .error ()

/-- Common return shape of the per-format extractors: an exact duration
(`Math.round`ed, `isEstimated: false`) from the parse body, else the
format's size-based estimate `max(1, round(estimate))` marked estimated. -/
def exactOr (body : Except Unit ℚ) (est : ℚ) : MediaDurationInfo :=
  match body with
  | .ok q => { duration := ((jsRound q : ℤ) : ℚ), isEstimated := false }
  | .error _ =>
    { duration := ((max 1 (jsRound est) : ℤ) : ℚ), isEstimated := true }

/-- `extractWavDuration`: header validation (length ≥ 44, `RIFF`, `WAVE`),
the chunk walk, `Math.round` of the exact duration; any failure falls into
the `catch` and yields the size-based estimate
`max(1, round(length / 176400))` marked estimated. -/
def extractWavDuration (b : ByteBuf) : MediaDurationInfo :=
  exactOr
    (if b.length < 44 then .error ()
     else if toAscii b 0 4 = "RIFF" then
       if toAscii b 8 12 = "WAVE" then wavWalk b b.length 12 else .error ()
     else .error ())
    ((b.length : ℚ) / 176400)

/-- `TLEN` scan of `extractMp3Duration` over `i ∈ [10, idEnd)` with
`idEnd = min(id3Size + 10, length - 10)`: at a `TLEN` frame with
`0 < frameSize < 20`, parse the ASCII milliseconds and return
`durationMs / 1000` when positive; otherwise keep scanning.  Loop exit is
`.error`. -/
def mp3Scan (b : ByteBuf) (idEnd : ℕ) : ℕ → ℕ → Except Unit ℚ
  | 0, _ => .error ()
  | fuel + 1, i =>
    if i < idEnd then
      if toAscii b i (i + 4) = "TLEN" then do
        let frameSize ← readU32BE b (i + 4)
        if 0 < frameSize ∧ frameSize < 20 then
          match parseIntJS (toAscii b (i + 11) (i + 11 + frameSize - 1)) with
          | some ms =>
            if 0 < ms then .ok ((ms : ℚ) / 1000) else mp3Scan b idEnd fuel (i + 1)
          | none => mp3Scan b idEnd fuel (i + 1)
        else mp3Scan b idEnd fuel (i + 1)
      else mp3Scan b idEnd fuel (i + 1)
    else .error ()

/-- `extractMp3Duration`: on an `ID3` header decode the synchsafe tag size
(7 usable bits per byte) and scan for a `TLEN` frame; otherwise — and in
the `catch` — fall back to the bitrate estimate
`max(1, round(length / 16000))` marked estimated (the in-loop fallback and
the `catch` produce the same value). -/
def extractMp3Duration (b : ByteBuf) : MediaDurationInfo :=
  exactOr
    (if 10 < b.length then
       if toAscii b 0 3 = "ID3" then
         let id3Size :=
           (b.getD 6 0 % 128) * 2 ^ 21 + (b.getD 7 0 % 128) * 2 ^ 14 +
           (b.getD 8 0 % 128) * 2 ^ 7 + b.getD 9 0 % 128
         mp3Scan b (min (id3Size + 10) (b.length - 10)) b.length 10
       else .error ()
     else .error ())
    ((b.length : ℚ) / 16000)

/-- Atom walk of `extractMp4Duration`: big-endian `size + FourCC` atoms
until `mvhd`; branch on the version byte (0 ⇒ 32-bit timescale/duration at
offsets +20/+24, else the 64-bit layout read at +28/+36); stop on a zero or
oversized atom length.  Out-of-range reads throw into the `catch`. -/
def mp4Walk (b : ByteBuf) : ℕ → ℕ → Except Unit ℚ
  | 0, _ => .error ()
  | fuel + 1, offset =>
    if offset + 8 < b.length then do
      let atomSize ← readU32BE b offset
      if toAscii b (offset + 4) (offset + 8) = "mvhd" then do
        let version ← readU8 b (offset + 8)
        let timeScale ← if version = 0 then readU32BE b (offset + 20)
                        else readU32BE b (offset + 28)
        let dur ← if version = 0 then readU32BE b (offset + 24)
                  else readU32BE b (offset + 36)
        if 0 < timeScale then .ok ((dur : ℚ) / (timeScale : ℚ))
        else if atomSize = 0 ∨ b.length - offset < atomSize then .error ()
        else mp4Walk b fuel (offset + atomSize)
      else if atomSize = 0 ∨ b.length - offset < atomSize then .error ()
      else mp4Walk b fuel (offset + atomSize)
    else .error ()

/-- `extractMp4Duration`: the atom walk with the bitrate fallback
`max(1, round(length / 125000))` marked estimated. -/
def extractMp4Duration (b : ByteBuf) : MediaDurationInfo :=
  exactOr (mp4Walk b b.length 0) ((b.length : ℚ) / 125000)

/-- Dot-splitting helper (`split('.')`, keeping empty segments); `acc` is
the reversed current segment. -/
def splitDotGo : Chars → Chars → List Chars
  | acc, [] => [acc.reverse]
  | acc, c :: cs =>
    if c = '.' then acc.reverse :: splitDotGo [] cs else splitDotGo (c :: acc) cs

/-- `fileName.toLowerCase().split('.').pop() || ''`. -/
def fileExtension (fileName : String) : String :=
  String.mk (((splitDotGo [] (lowerStr fileName.data)).getLast?).getD [])

/-- `SimpleDurationExtractor.extractDuration`: dispatch on the file
extension; unknown extensions use the `32000` bytes-per-second estimate.
Every branch is total (each per-format extractor catches its own errors
and the estimates cannot fail), so the function-level
`catch { duration: 60, isEstimated: true }` is unreachable. -/
def extractDuration (b : ByteBuf) (fileName : String) : MediaDurationInfo :=
  match fileExtension fileName with
  | "wav" => extractWavDuration b
  | "mp3" => extractMp3Duration b
  | "mp4" => extractMp4Duration b
  | "m4a" => extractMp4Duration b
  | _ =>
    { duration := ((max 1 (jsRound ((b.length : ℚ) / 32000)) : ℤ) : ℚ)
      isEstimated := true }


/-! ## Theorems -/

/-- Environment of a small single-chunk job: the media probe succeeds
(audio, no video, duration `d` seconds), audio optimisation produces a
100-byte payload, and the single transcription call returns `T`. -/
def envSingleChunk (T : String) (d : ℚ) : OrchestratorEnv :=
  { getMediaInfo := .ok ⟨d, "wav", true, false, none, none⟩
    extractAudio := .ok 0
    optimizeAudio := .ok 100
    splitAudio := fun _ => .ok []
    transcribe := fun _ => .ok T }

/-- C1: for every transcript `T` and duration `d` (on the single-chunk
path, `d ≤ 600` seconds), the `analytics` field of the result of
`processFile` and of `processFileWithProgress` is
`analyzeSpeech T (d / 60)` — computed on the raw transcription, identical
whether `removeFillerWords` is `some b` or left unset. -/
theorem C1_analytics_on_raw (T : String) (d : ℚ) (b : Bool) (fn : String)
    (hd : d ≤ 600) :
    (processFile (envSingleChunk T d) fn { removeFillerWords := some b }).analytics
      = some (analyzeSpeech T (d / 60)) ∧
    (processFile (envSingleChunk T d) fn {}).analytics
      = some (analyzeSpeech T (d / 60)) ∧
    (processFileWithProgress (envSingleChunk T d) fn
        { removeFillerWords := some b }).analytics
      = some (analyzeSpeech T (d / 60)) ∧
    (processFileWithProgress (envSingleChunk T d) fn {}).analytics
      = some (analyzeSpeech T (d / 60)) := by
  have h600 : ¬ (10 * 60 < d) := by push_neg; linarith
  have hsize : ¬ (maxSize < 100) := by decide
  refine ⟨?_, ?_, ?_, ?_⟩ <;>
    simp [processFile, processFileWithProgress, processFileE,
      processFileWithProgressE, envSingleChunk, Except.bind, bind, h600, hsize]

/-- C1 witness: the theorem applied at `T = "hello"`, `d = 60`. -/
theorem C1_analytics_on_raw_witness :
    (60 : ℚ) ≤ 600 ∧
    (processFile (envSingleChunk "hello" 60) "f"
        { removeFillerWords := some true }).analytics
      = some (analyzeSpeech "hello" (60 / 60)) :=
  ⟨by norm_num, (C1_analytics_on_raw "hello" 60 true "f" (by norm_num)).1⟩

/-- C2: the replacement callback of `removeFillerWords` step 2 receives the
JS rest-parameter `[...captureGroups, offset, subject]`, so
`groups[groups.length - 1]` is the whole subject string and every pattern
match is replaced by the entire text.  On `"a like so."` the pattern
`\b(um|uh|ah|er|like|well)\s+so\b` therefore rewrites the text to
`"a a like so.."`, whose token `"so.."` does not occur in the input — the
output is not an information-reduction of the input. -/
theorem C2_new_token :
    removeFillerWords "a like so." = "a a like so.." ∧
    "so..".data ∈ extractWords (removeFillerWords "a like so.").data ∧
    "so..".data ∉ extractWords ("a like so.".data) :=
  ⟨by decide, by decide, by decide⟩

/-- Transcription oracle with a permanently failing middle chunk. -/
def envChunkFail : OrchestratorEnv :=
  { getMediaInfo := .ok ⟨1200, "wav", true, false, none, none⟩
    extractAudio := .ok 0
    optimizeAudio := .ok 100
    splitAudio := fun _ => .ok [1, 2, 3]
    transcribe := fun i =>
      if i = 0 then .ok "Hello world."
      else if i = 1 then .error "retries exhausted"
      else .ok "Goodbye now." }

/-- C3 counterexample: with chunks `["Hello world.", <fail>, "Goodbye now."]`
the failed slot contributes `"[Chunk 2 transcription failed]"`, not the
claimed `"[segment 2 unavailable]"`; and on the chunked path of
`processFileWithProgress` (duration 1200 s > 600 s, same failing chunk) the
job does not continue past the failure at all — it returns the failure
shape. -/
theorem C3_counterexample :
    processLargeFile envChunkFail 10 =
      .ok "Hello world. [Chunk 2 transcription failed] Goodbye now." ∧
    "Hello world. [Chunk 2 transcription failed] Goodbye now." ≠
      "Hello world. [segment 2 unavailable] Goodbye now." ∧
    (processFileWithProgress envChunkFail "f" {}).success = false ∧
    (processFileWithProgress envChunkFail "f" {}).error = some "retries exhausted" := by
  have hdur : (10 * 60 : ℚ) < 1200 := by norm_num
  refine ⟨rfl, by decide, ?_, ?_⟩ <;>
    simp [processFileWithProgress, processFileWithProgressE, envChunkFail,
      Except.bind, bind, progressLoop, hdur]

/-- C3 (amended): on the `processLargeFile` chunk path of `processFile`,
chunk processing continues past a permanently failed chunk; slot `j`
contributes its transcription, or exactly the placeholder
`"[Chunk (j+1) transcription failed]"` when its retries are exhausted, and
the slots are joined with a single separating space in index order (the
failed slot shifts no neighbour).  On `processFileWithProgress` and the
oversized-payload path a chunk failure instead aborts the job
(`C3_counterexample`). -/
theorem C3_reassembly (env : OrchestratorEnv) (C : ℚ) (chunks : List ℕ)
    (h : env.splitAudio C = .ok chunks) :
    processLargeFile env C = .ok (String.intercalate " "
      ((List.range chunks.length).map (fun j =>
        match env.transcribe j with
        | .ok t => t
        | .error _ => "[Chunk " ++ toString (j + 1) ++ " transcription failed]"))) := by
  have main : ∀ (cs : List ℕ) (i0 : ℕ), largeFileLoop env i0 cs =
      (List.range cs.length).map (fun j =>
        match env.transcribe (i0 + j) with
        | .ok t => t
        | .error _ => "[Chunk " ++ toString (i0 + j + 1) ++ " transcription failed]") := by
    intro cs
    induction cs with
    | nil => intro i0; rfl
    | cons hd tl ih =>
      intro i0
      have harith : ∀ j : ℕ, (i0 + 1) + j = i0 + (j + 1) := by omega
      simp only [largeFileLoop, List.length_cons, List.range_succ_eq_map,
        List.map_cons, List.map_map, ih (i0 + 1)]
      simp [Function.comp, harith]
  simp [processLargeFile, h, Except.bind, bind, main chunks 0]

/-- C3 witness: the amended theorem applied to the concrete failing
environment. -/
theorem C3_reassembly_witness :
    envChunkFail.splitAudio 10 = .ok [1, 2, 3] ∧
    processLargeFile envChunkFail 10 = .ok (String.intercalate " "
      ((List.range (([1, 2, 3] : List ℕ).length)).map (fun j =>
        match envChunkFail.transcribe j with
        | .ok t => t
        | .error _ => "[Chunk " ++ toString (j + 1) ++ " transcription failed]"))) :=
  ⟨rfl, C3_reassembly envChunkFail 10 [1, 2, 3] rfl⟩


/-- The `fillerWordPercentage` field is `totalFillers / totalWords * 100`
(helper, definitional). -/
theorem fillerWordPercentage_eq (ws : List Chars) :
    (analyzeFillerWords ws).fillerWordPercentage =
      if 0 < ws.length then
        ((analyzeFillerWords ws).totalFillerWords : ℚ) / (ws.length : ℚ) * 100
      else 0 := rfl

/-- The `fillerWordScore` field is the band of the `fillerWordPercentage`
field (helper, definitional). -/
theorem fillerWordScore_eq (ws : List Chars) :
    (analyzeFillerWords ws).fillerWordScore =
      (fillerBand (analyzeFillerWords ws).fillerWordPercentage).1 := rfl

/-- Number of pure-filler tokens of a word list (the unconditional layer of
`analyzeFillerWords`). -/
def pureFillerCount (ws : List Chars) : ℕ :=
  ws.countP (fun w => pureFillers.any (fun f => f.data = cleanWord w))

/-- C7 counterexample: `"you um know"` has strictly more pure-filler tokens
than `"you know"` (one `um` inserted, all other tokens unchanged), yet its
`fillerWordPercentage` is strictly smaller (100/3 vs 50): the inserted `um`
destroys the `\byou know\b` pattern match and enlarges the denominator. -/
theorem C7_counterexample :
    pureFillerCount (extractWords "you know".data) = 0 ∧
    pureFillerCount (extractWords "you um know".data) = 1 ∧
    (analyzeFillerWords (extractWords "you um know".data)).fillerWordPercentage <
      (analyzeFillerWords (extractWords "you know".data)).fillerWordPercentage ∧
    (analyzeFillerWords (extractWords "you know".data)).totalFillerWords = 1 ∧
    (analyzeFillerWords (extractWords "you um know".data)).totalFillerWords = 1 := by
  have h1 : (analyzeFillerWords (extractWords "you um know".data)).totalFillerWords = 1 := by
    decide
  have h2 : (analyzeFillerWords (extractWords "you know".data)).totalFillerWords = 1 := by
    decide
  have h3 : (extractWords "you um know".data).length = 3 := by decide
  have h4 : (extractWords "you know".data).length = 2 := by decide
  refine ⟨by decide, by decide, ?_, h2, h1⟩
  rw [fillerWordPercentage_eq, fillerWordPercentage_eq, h1, h2, h3, h4]
  norm_num

/-- C7 (amended): the band table of `analyzeFillerWords` is monotone — a
higher `fillerWordPercentage` yields a lower or equal `fillerWordScore` —
and the score is exactly the band of the percentage; but a transcript with
strictly more pure-filler tokens can still score a strictly *smaller*
percentage (`C7_counterexample`), because the added tokens enlarge the
denominator and can break multi-word pattern matches, so monotonicity in
the transcript itself fails. -/
theorem C7_band_monotone :
    (∀ ws : List Chars, (analyzeFillerWords ws).fillerWordScore =
      (fillerBand (analyzeFillerWords ws).fillerWordPercentage).1) ∧
    (∀ p q : ℚ, p ≤ q → (fillerBand q).1 ≤ (fillerBand p).1) := by
  refine ⟨fillerWordScore_eq, ?_⟩
  intro p q hpq
  unfold fillerBand
  split_ifs <;> norm_num <;> linarith

/-- C7 witness: the amended theorem applied at percentages 1 ≤ 3. -/
theorem C7_band_monotone_witness :
    (1 : ℚ) ≤ 3 ∧ (fillerBand 3).1 ≤ (fillerBand 1).1 :=
  ⟨by norm_num, C7_band_monotone.2 1 3 (by norm_num)⟩


/-- Every `ok` result of the `processFile` try body is a full success shape
(helper for C4). -/
theorem pfE_ok_shape (env : OrchestratorEnv) (fn : String) (cfg : TranscriptionConfig)
    (r : TranscriptionApiResponse) (h : processFileE env fn cfg = .ok r) :
    r.success = true ∧ r.error = none ∧ r.analytics.isSome ∧ r.duration.isSome := by
  unfold processFileE at h
  simp only [bind, Except.bind] at h
  repeat' split at h
  all_goals first
    | (simp only [reduceCtorEq] at h)
    | (injection h with hh; subst hh; exact ⟨rfl, rfl, rfl, rfl⟩)

/-- Every `ok` result of the `processFileWithProgress` try body is a full
success shape (helper for C4). -/
theorem pwpE_ok_shape (env : OrchestratorEnv) (fn : String) (cfg : TranscriptionConfig)
    (r : TranscriptionApiResponse) (h : processFileWithProgressE env fn cfg = .ok r) :
    r.success = true ∧ r.error = none ∧ r.analytics.isSome ∧ r.duration.isSome := by
  unfold processFileWithProgressE at h
  simp only [bind, Except.bind] at h
  repeat' split at h
  all_goals first
    | (simp only [reduceCtorEq] at h)
    | (injection h with hh; subst hh; exact ⟨rfl, rfl, rfl, rfl⟩)

/-- C4 (amended): for every environment, file name and configuration, both
`processFile` and `processFileWithProgress` return exactly one of two
well-formed shapes and never propagate an exception: either a success
object (`success = true`, no `error`, with `analytics` and `duration`
populated — the oversized-payload early return additionally omits
`rawTranscription` and `fillerWordsRemoved`, see `C4_counterexample`), or
the failure object (`success = false`, an `error` message, empty
`transcription`, no `analytics`, no `duration`). -/
theorem C4_two_shapes (env : OrchestratorEnv) (fn : String)
    (cfg : TranscriptionConfig) :
    (((processFile env fn cfg).success = true ∧
      (processFile env fn cfg).error = none ∧
      (processFile env fn cfg).analytics.isSome ∧
      (processFile env fn cfg).duration.isSome) ∨
     ((processFile env fn cfg).success = false ∧
      (processFile env fn cfg).error.isSome ∧
      (processFile env fn cfg).transcription = "" ∧
      (processFile env fn cfg).analytics = none ∧
      (processFile env fn cfg).duration = none)) ∧
    (((processFileWithProgress env fn cfg).success = true ∧
      (processFileWithProgress env fn cfg).error = none ∧
      (processFileWithProgress env fn cfg).analytics.isSome ∧
      (processFileWithProgress env fn cfg).duration.isSome) ∨
     ((processFileWithProgress env fn cfg).success = false ∧
      (processFileWithProgress env fn cfg).error.isSome ∧
      (processFileWithProgress env fn cfg).transcription = "" ∧
      (processFileWithProgress env fn cfg).analytics = none ∧
      (processFileWithProgress env fn cfg).duration = none)) := by
  constructor
  · unfold processFile
    cases hp : processFileE env fn cfg with
    | ok r => exact Or.inl (pfE_ok_shape env fn cfg r hp)
    | error e => exact Or.inr ⟨rfl, rfl, rfl, rfl, rfl⟩
  · unfold processFileWithProgress
    cases hp : processFileWithProgressE env fn cfg with
    | ok r => exact Or.inl (pwpE_ok_shape env fn cfg r hp)
    | error e => exact Or.inr ⟨rfl, rfl, rfl, rfl, rfl⟩

/-- Oversized-payload environment: the optimised audio exceeds the 20 MB
ceiling, so `processFile` takes the early-return chunked branch. -/
def envOversized : OrchestratorEnv :=
  { getMediaInfo := .ok ⟨120, "wav", true, false, none, none⟩
    extractAudio := .ok 0
    optimizeAudio := .ok (maxSize + 1)
    splitAudio := fun _ => .ok [100]
    transcribe := fun _ => .ok "hello world" }

/-- C4 counterexample: the oversized-payload early return is a success
object *without* `rawTranscription` and `fillerWordsRemoved`, so not every
success is the claimed full shape. -/
theorem C4_counterexample :
    (processFile envOversized "f" {}).success = true ∧
    (processFile envOversized "f" {}).rawTranscription = none ∧
    (processFile envOversized "f" {}).fillerWordsRemoved = none ∧
    (processFile envOversized "f" {}).analytics.isSome = true :=
  ⟨rfl, rfl, rfl, rfl⟩


/-- Bounds for the weighted overall score (helper for C6). -/
theorem overall_bound_aux (p f v c : ℚ) (hp : 4 ≤ p) (hp' : p ≤ 10)
    (hf : 2 ≤ f) (hf' : f ≤ 10) (hv : 2 ≤ v) (hv' : v ≤ 10)
    (hc : 1 ≤ c) (hc' : c ≤ 10) :
    1 ≤ ((jsRound ((p * (25 / 100) + f * (30 / 100) + v * (25 / 100) +
        c * (20 / 100)) * 10) : ℤ) : ℚ) / 10 ∧
    ((jsRound ((p * (25 / 100) + f * (30 / 100) + v * (25 / 100) +
        c * (20 / 100)) * 10) : ℤ) : ℚ) / 10 ≤ 10 := by
  have hW1 : (23 : ℚ) ≤
      (p * (25 / 100) + f * (30 / 100) + v * (25 / 100) + c * (20 / 100)) * 10 := by
    linarith
  have hW2 :
      (p * (25 / 100) + f * (30 / 100) + v * (25 / 100) + c * (20 / 100)) * 10 ≤ 100 := by
    linarith
  have hj1 : (23 : ℤ) ≤ jsRound ((p * (25 / 100) + f * (30 / 100) +
      v * (25 / 100) + c * (20 / 100)) * 10) := by
    refine Int.le_floor.mpr ?_
    push_cast
    linarith
  have hj2 : jsRound ((p * (25 / 100) + f * (30 / 100) +
      v * (25 / 100) + c * (20 / 100)) * 10) ≤ 100 := by
    have : jsRound ((p * (25 / 100) + f * (30 / 100) +
        v * (25 / 100) + c * (20 / 100)) * 10) < 101 := by
      refine Int.floor_lt.mpr ?_
      push_cast
      linarith
    omega
  have hc1 : (23 : ℚ) ≤ (jsRound ((p * (25 / 100) + f * (30 / 100) +
      v * (25 / 100) + c * (20 / 100)) * 10) : ℚ) := by exact_mod_cast hj1
  have hc2 : ((jsRound ((p * (25 / 100) + f * (30 / 100) +
      v * (25 / 100) + c * (20 / 100)) * 10) : ℤ) : ℚ) ≤ 100 := by exact_mod_cast hj2
  constructor <;> linarith

/-- The pace band takes only the scores 4, 6, 7, 10 (helper). -/
theorem paceScore_mem (w : ℚ) :
    (analyzePace w).paceScore = 4 ∨ (analyzePace w).paceScore = 6 ∨
    (analyzePace w).paceScore = 7 ∨ (analyzePace w).paceScore = 10 := by
  unfold analyzePace
  split_ifs <;> simp

/-- The filler band takes only the scores 2, 4, 6, 8, 10 (helper). -/
theorem fillerBand_mem (p : ℚ) :
    (fillerBand p).1 = 2 ∨ (fillerBand p).1 = 4 ∨ (fillerBand p).1 = 6 ∨
    (fillerBand p).1 = 8 ∨ (fillerBand p).1 = 10 := by
  unfold fillerBand
  split_ifs <;> simp

/-- The vocabulary band takes only the scores 2, 4, 6, 8, 10 (helper). -/
theorem vocabBand_mem (d : ℚ) :
    (vocabBand d).1 = 2 ∨ (vocabBand d).1 = 4 ∨ (vocabBand d).1 = 6 ∨
    (vocabBand d).1 = 8 ∨ (vocabBand d).1 = 10 := by
  unfold vocabBand
  split_ifs <;> simp

/-- `jsRound` is monotone (helper). -/
theorem jsRound_mono {p q : ℚ} (h : p ≤ q) : jsRound p ≤ jsRound q :=
  Int.floor_le_floor (by linarith)

/-- C6: for every transcript and duration, `analyzeSpeech` returns an
`overallScore` equal to the weighted sum
`0.25·pace + 0.30·filler + 0.25·vocabulary + 0.20·confidence` rounded to
one decimal, lying in `[1, 10]`; the pace score is one of {4,6,7,10}, the
filler and vocabulary scores one of {2,4,6,8,10}, and the confidence score
an integer clamped to `[1, 10]`. -/
theorem C6_score_bounds (text : String) (d : ℚ) :
    ((analyzeSpeech text d).overallScore =
      ((jsRound (((analyzeSpeech text d).paceAnalysis.paceScore * (25 / 100) +
        (analyzeSpeech text d).fillerWordAnalysis.fillerWordScore * (30 / 100) +
        (analyzeSpeech text d).vocabularyAnalysis.vocabularyScore * (25 / 100) +
        (analyzeSpeech text d).confidenceAnalysis.confidenceScore * (20 / 100)) * 10) : ℤ) : ℚ) / 10) ∧
    (1 ≤ (analyzeSpeech text d).overallScore ∧ (analyzeSpeech text d).overallScore ≤ 10) ∧
    ((analyzeSpeech text d).paceAnalysis.paceScore = 4 ∨ (analyzeSpeech text d).paceAnalysis.paceScore = 6 ∨
      (analyzeSpeech text d).paceAnalysis.paceScore = 7 ∨ (analyzeSpeech text d).paceAnalysis.paceScore = 10) ∧
    ((analyzeSpeech text d).fillerWordAnalysis.fillerWordScore = 2 ∨
      (analyzeSpeech text d).fillerWordAnalysis.fillerWordScore = 4 ∨
      (analyzeSpeech text d).fillerWordAnalysis.fillerWordScore = 6 ∨
      (analyzeSpeech text d).fillerWordAnalysis.fillerWordScore = 8 ∨
      (analyzeSpeech text d).fillerWordAnalysis.fillerWordScore = 10) ∧
    ((analyzeSpeech text d).vocabularyAnalysis.vocabularyScore = 2 ∨
      (analyzeSpeech text d).vocabularyAnalysis.vocabularyScore = 4 ∨
      (analyzeSpeech text d).vocabularyAnalysis.vocabularyScore = 6 ∨
      (analyzeSpeech text d).vocabularyAnalysis.vocabularyScore = 8 ∨
      (analyzeSpeech text d).vocabularyAnalysis.vocabularyScore = 10) ∧
    (∃ z : ℤ, (analyzeSpeech text d).confidenceAnalysis.confidenceScore = (z : ℚ) ∧ 1 ≤ z ∧ z ≤ 10) := by
  set a := analyzeSpeech text d with ha
  have hp : a.paceAnalysis.paceScore = 4 ∨ a.paceAnalysis.paceScore = 6 ∨
      a.paceAnalysis.paceScore = 7 ∨ a.paceAnalysis.paceScore = 10 :=
    paceScore_mem _
  have hf : a.fillerWordAnalysis.fillerWordScore = 2 ∨
      a.fillerWordAnalysis.fillerWordScore = 4 ∨
      a.fillerWordAnalysis.fillerWordScore = 6 ∨
      a.fillerWordAnalysis.fillerWordScore = 8 ∨
      a.fillerWordAnalysis.fillerWordScore = 10 :=
    fillerBand_mem _
  have hv : a.vocabularyAnalysis.vocabularyScore = 2 ∨
      a.vocabularyAnalysis.vocabularyScore = 4 ∨
      a.vocabularyAnalysis.vocabularyScore = 6 ∨
      a.vocabularyAnalysis.vocabularyScore = 8 ∨
      a.vocabularyAnalysis.vocabularyScore = 10 :=
    vocabBand_mem _
  have hcz : ∃ z : ℤ, a.confidenceAnalysis.confidenceScore = (z : ℚ) ∧ 1 ≤ z ∧ z ≤ 10 := by
    refine ⟨_, rfl, le_max_left _ _, ?_⟩
    exact max_le (by norm_num) (min_le_left _ _)
  refine ⟨rfl, ?_, hp, hf, hv, hcz⟩
  obtain ⟨z, hz, hz1, hz10⟩ := hcz
  have hpb : 4 ≤ a.paceAnalysis.paceScore ∧ a.paceAnalysis.paceScore ≤ 10 := by
    rcases hp with h | h | h | h <;> rw [h] <;> norm_num
  have hfb : 2 ≤ a.fillerWordAnalysis.fillerWordScore ∧
      a.fillerWordAnalysis.fillerWordScore ≤ 10 := by
    rcases hf with h | h | h | h | h <;> rw [h] <;> norm_num
  have hvb : 2 ≤ a.vocabularyAnalysis.vocabularyScore ∧
      a.vocabularyAnalysis.vocabularyScore ≤ 10 := by
    rcases hv with h | h | h | h | h <;> rw [h] <;> norm_num
  have hcb : 1 ≤ a.confidenceAnalysis.confidenceScore ∧
      a.confidenceAnalysis.confidenceScore ≤ 10 := by
    rw [hz]
    exact ⟨by exact_mod_cast hz1, by exact_mod_cast hz10⟩
  have ho : a.overallScore =
      ((jsRound ((a.paceAnalysis.paceScore * (25 / 100) +
        a.fillerWordAnalysis.fillerWordScore * (30 / 100) +
        a.vocabularyAnalysis.vocabularyScore * (25 / 100) +
        a.confidenceAnalysis.confidenceScore * (20 / 100)) * 10) : ℤ) : ℚ) / 10 := rfl
  rw [ho]
  exact overall_bound_aux _ _ _ _ hpb.1 hpb.2 hfb.1 hfb.2 hvb.1 hvb.2 hcb.1 hcb.2

/-- C5: for every total duration `D > 0` and chunk-minute setting
`Cm > 0` (ceiling `C = Cm * 60` seconds), `splitAudio` returns the single
whole-range input when `D ≤ C`, and otherwise plans
`count = ⌈D / C⌉` windows where window `i` starts at `i·C` with planned
length `C`; the windows (each truncated at `D`) tile `[0, D)` exactly —
every instant lies in exactly one window. -/
theorem C5_chunk_planning (D Cm : ℚ) (hD : 0 < D) (hC : 0 < Cm) :
    (D ≤ Cm * 60 → splitAudioPlan D Cm = .whole) ∧
    (Cm * 60 < D →
      splitAudioPlan D Cm = .windows (chunkWindows D (Cm * 60)) ∧
      (chunkWindows D (Cm * 60)).length = (⌈D / (Cm * 60)⌉).toNat ∧
      (∀ i : ℕ, i < (⌈D / (Cm * 60)⌉).toNat →
        (chunkWindows D (Cm * 60)).getD i (0, 0) = ((i : ℚ) * (Cm * 60), Cm * 60)) ∧
      (∀ t : ℚ, 0 ≤ t → t < D →
        ∃! i : ℕ, i < (⌈D / (Cm * 60)⌉).toNat ∧
          (i : ℚ) * (Cm * 60) ≤ t ∧ t < min (((i : ℚ) + 1) * (Cm * 60)) D)) := by
  have hCpos : (0 : ℚ) < Cm * 60 := by positivity
  constructor
  · intro h
    simp [splitAudioPlan, h]
  · intro h
    have hns : ¬ D ≤ Cm * 60 := not_le.mpr h
    refine ⟨by simp [splitAudioPlan, hns], ?_, ?_, ?_⟩
    · rw [chunkWindows, List.length_map, List.length_range]
    · intro i hi
      rw [chunkWindows, List.getD_eq_getElem?_getD, List.getElem?_map,
        List.getElem?_range hi]
      rfl
    · intro t ht0 htD
      have hfl : (0 : ℤ) ≤ ⌊t / (Cm * 60)⌋ :=
        Int.floor_nonneg.mpr (div_nonneg ht0 hCpos.le)
      have hfle : ((⌊t / (Cm * 60)⌋ : ℤ) : ℚ) ≤ t / (Cm * 60) := Int.floor_le _
      have hflt : t / (Cm * 60) < (⌊t / (Cm * 60)⌋ : ℚ) + 1 := Int.lt_floor_add_one _
      have hdivlt : t / (Cm * 60) < D / (Cm * 60) := by gcongr
      have hlt_ceil : ⌊t / (Cm * 60)⌋ < ⌈D / (Cm * 60)⌉ :=
        Int.lt_ceil.mpr (lt_of_le_of_lt hfle hdivlt)
      have hcast : ((⌊t / (Cm * 60)⌋.toNat : ℕ) : ℚ) = ((⌊t / (Cm * 60)⌋ : ℤ) : ℚ) := by
        exact_mod_cast congrArg (fun z : ℤ => (z : ℚ)) (Int.toNat_of_nonneg hfl)
      have hmul : (t / (Cm * 60)) * (Cm * 60) = t :=
        div_mul_cancel₀ t (ne_of_gt hCpos)
      have hmain_le : ((⌊t / (Cm * 60)⌋.toNat : ℕ) : ℚ) * (Cm * 60) ≤ t := by
        rw [hcast]
        calc ((⌊t / (Cm * 60)⌋ : ℤ) : ℚ) * (Cm * 60)
            ≤ (t / (Cm * 60)) * (Cm * 60) :=
              mul_le_mul_of_nonneg_right hfle hCpos.le
          _ = t := hmul
      have hmain_lt : t < (((⌊t / (Cm * 60)⌋.toNat : ℕ) : ℚ) + 1) * (Cm * 60) := by
        rw [hcast]
        calc t = (t / (Cm * 60)) * (Cm * 60) := hmul.symm
          _ < (((⌊t / (Cm * 60)⌋ : ℤ) : ℚ) + 1) * (Cm * 60) :=
              mul_lt_mul_of_pos_right hflt hCpos
      refine ⟨⌊t / (Cm * 60)⌋.toNat, ⟨by omega, hmain_le, lt_min hmain_lt htD⟩, ?_⟩
      rintro j ⟨hj1, hj2, hj3⟩
      have hj3' : t < ((j : ℚ) + 1) * (Cm * 60) := lt_of_lt_of_le hj3 (min_le_left _ _)
      have hfloor_eq : ⌊t / (Cm * 60)⌋ = (j : ℤ) := by
        refine Int.floor_eq_iff.mpr ⟨?_, ?_⟩
        · push_cast
          exact (le_div_iff₀ hCpos).mpr hj2
        · push_cast
          exact (div_lt_iff₀ hCpos).mpr hj3'
      omega

/-- C5 witness: applied at the 25-minute file with 10-minute chunks
(`D = 1500` s, ceiling 600 s): three windows of planned length 600 s
starting at 0, 600, 1200 s, the last truncated to 300 s — the claimed
`[10, 10, 5]` minutes at `[0, 10, 20]` minutes; and the 8-minute file
(480 s) stays whole. -/
theorem C5_chunk_planning_witness :
    (0 : ℚ) < 1500 ∧ (0 : ℚ) < 10 ∧
    splitAudioPlan 1500 10 = .windows (chunkWindows 1500 (10 * 60)) ∧
    chunkWindows 1500 (10 * 60) = [(0, 600), (600, 600), (1200, 600)] ∧
    (chunkWindows 1500 (10 * 60)).map (fun w => min w.2 (1500 - w.1)) =
      [600, 600, 300] ∧
    splitAudioPlan 480 10 = .whole := by
  have h3 : (⌈(1500 : ℚ) / (10 * 60)⌉) = 3 := by
    rw [Int.ceil_eq_iff] <;> norm_num
  have hw : chunkWindows 1500 (10 * 60) = [(0, 600), (600, 600), (1200, 600)] := by
    rw [chunkWindows, h3]
    show List.map _ (List.range 3) = _
    rw [show List.range 3 = [0, 1, 2] from rfl]
    norm_num
  refine ⟨by norm_num, by norm_num,
    ((C5_chunk_planning 1500 10 (by norm_num) (by norm_num)).2 (by norm_num)).1,
    hw, ?_,
    (C5_chunk_planning 480 10 (by norm_num) (by norm_num)).1 (by norm_num)⟩
  rw [hw]
  norm_num


/-- `exactOr` marks a result estimated only on the fallback, whose value is
at least 1 (helper for C10). -/
theorem exactOr_est (body : Except Unit ℚ) (est : ℚ)
    (h : (exactOr body est).isEstimated = true) :
    1 ≤ (exactOr body est).duration := by
  cases body with
  | ok q => simp [exactOr] at h
  | error e =>
    show (1 : ℚ) ≤ ((max 1 (jsRound est) : ℤ) : ℚ)
    exact_mod_cast le_max_left 1 (jsRound est)

/-- C10: `SimpleDurationExtractor.extractDuration` is total (every branch,
including each per-format `catch`, produces a value — the function-level
`catch` default of 60 s is unreachable); whenever the result is marked
estimated its duration is at least 1 second, and an unrecognised extension
yields the `length / 32000` bitrate estimate. -/
theorem C10_total_estimate (b : ByteBuf) (fn : String) :
    ((extractDuration b fn).isEstimated = true → 1 ≤ (extractDuration b fn).duration) ∧
    (fileExtension fn ≠ "wav" → fileExtension fn ≠ "mp3" → fileExtension fn ≠ "mp4" →
      fileExtension fn ≠ "m4a" →
      extractDuration b fn =
        { duration := ((max 1 (jsRound ((b.length : ℚ) / 32000)) : ℤ) : ℚ)
          isEstimated := true }) := by
  constructor
  · unfold extractDuration
    split
    · exact exactOr_est _ _
    · exact exactOr_est _ _
    · exact exactOr_est _ _
    · exact exactOr_est _ _
    · intro _
      show (1 : ℚ) ≤ ((max 1 (jsRound ((b.length : ℚ) / 32000)) : ℤ) : ℚ)
      exact_mod_cast le_max_left 1 (jsRound ((b.length : ℚ) / 32000))
  · intro h1 h2 h3 h4
    unfold extractDuration
    split
    · exact absurd (by assumption) h1
    · exact absurd (by assumption) h2
    · exact absurd (by assumption) h3
    · exact absurd (by assumption) h4
    · rfl

/-- C10 witness: applied at a 3-byte buffer with an unrecognised
extension. -/
theorem C10_total_estimate_witness :
    (extractDuration [1, 2, 3] "a.bin").isEstimated = true ∧
    1 ≤ (extractDuration [1, 2, 3] "a.bin").duration ∧
    fileExtension "a.bin" ≠ "wav" ∧
    extractDuration [1, 2, 3] "a.bin" =
      { duration := ((max 1 (jsRound (((([1, 2, 3] : ByteBuf).length : ℕ) : ℚ) / 32000)) : ℤ) : ℚ)
        isEstimated := true } :=
  ⟨by decide,
   (C10_total_estimate [1, 2, 3] "a.bin").1 (by decide),
   by decide,
   (C10_total_estimate [1, 2, 3] "a.bin").2 (by decide) (by decide) (by decide) (by decide)⟩


/-- A minimal well-formed WAV buffer: `RIFF` header, `WAVE` tag, a 16-byte
`fmt ` chunk carrying the little-endian `sampleRate` (at chunk offset +12)
and `byteRate` (at +16), then a `data` chunk declaring `dataSize`, and one
padding byte (45 bytes total). -/
def mkWav (sr br ds : ℕ) : ByteBuf :=
  [82, 73, 70, 70, 37, 0, 0, 0, 87, 65, 86, 69,
   102, 109, 116, 32, 16, 0, 0, 0, 1, 0, 1, 0,
   sr % 256, sr / 256 % 256, sr / 65536 % 256, sr / 16777216 % 256,
   br % 256, br / 256 % 256, br / 65536 % 256, br / 16777216 % 256,
   2, 0, 16, 0, 100, 97, 116, 97,
   ds % 256, ds / 256 % 256, ds / 65536 % 256, ds / 16777216 % 256, 0]

/-- C8: on a well-formed WAV buffer, `extractDuration` walks the RIFF/WAVE
sub-chunks (4-byte id + 4-byte little-endian size, advancing `8 + size`),
reads `byteRate` from the `fmt ` chunk and `dataSize` from the `data`
chunk, and returns `Math.round(dataSize / byteRate)` marked exact
(`isEstimated = false`), for every `.wav` file name and every in-range
sampleRate/byteRate/dataSize with positive rates. -/
theorem C8_wav_exact (sr br ds : ℕ) (fn : String) (hfe : fileExtension fn = "wav")
    (hsr : 0 < sr) (hbr : 0 < br)
    (hsr32 : sr < 2 ^ 32) (hbr32 : br < 2 ^ 32) (hds32 : ds < 2 ^ 32) :
    extractDuration (mkWav sr br ds) fn =
      { duration := ((jsRound ((ds : ℚ) / (br : ℚ)) : ℤ) : ℚ)
        isEstimated := false } := by
  have hXsr : sr % 256 + 256 * (sr / 256 % 256) + 65536 * (sr / 65536 % 256) +
      16777216 * (sr / 16777216 % 256) = sr := by omega
  have hXbr : br % 256 + 256 * (br / 256 % 256) + 65536 * (br / 65536 % 256) +
      16777216 * (br / 16777216 % 256) = br := by omega
  have hXds : ds % 256 + 256 * (ds / 256 % 256) + 65536 * (ds / 65536 % 256) +
      16777216 * (ds / 16777216 % 256) = ds := by omega
  have hfind : wavFindData (mkWav sr br ds) br 45 36 = .ok ((ds : ℚ) / (br : ℚ)) := by
    have h : wavFindData (mkWav sr br ds) br 45 36 =
        .ok (((ds % 256 + 256 * (ds / 256 % 256) + 65536 * (ds / 65536 % 256) +
          16777216 * (ds / 16777216 % 256) : ℕ) : ℚ) / (br : ℚ)) := rfl
    rw [h, hXds]
  have hwalk : wavWalk (mkWav sr br ds) 45 12 = .ok ((ds : ℚ) / (br : ℚ)) := by
    have h : wavWalk (mkWav sr br ds) 45 12 =
        (if 0 < sr % 256 + 256 * (sr / 256 % 256) + 65536 * (sr / 65536 % 256) +
              16777216 * (sr / 16777216 % 256) ∧
            0 < br % 256 + 256 * (br / 256 % 256) + 65536 * (br / 65536 % 256) +
              16777216 * (br / 16777216 % 256) then
          match wavFindData (mkWav sr br ds)
              (br % 256 + 256 * (br / 256 % 256) + 65536 * (br / 65536 % 256) +
                16777216 * (br / 16777216 % 256)) 45 36 with
          | .ok q => .ok q
          | .error _ => wavWalk (mkWav sr br ds) 44 36
        else wavWalk (mkWav sr br ds) 44 36) := rfl
    rw [h, hXsr, hXbr, if_pos ⟨hsr, hbr⟩, hfind]
  have hewd : extractWavDuration (mkWav sr br ds) =
      { duration := ((jsRound ((ds : ℚ) / (br : ℚ)) : ℤ) : ℚ)
        isEstimated := false } := by
    have hb : extractWavDuration (mkWav sr br ds) =
        exactOr (wavWalk (mkWav sr br ds) 45 12) ((45 : ℚ) / 176400) := rfl
    rw [hb, hwalk]
    rfl
  unfold extractDuration
  rw [hfe]
  exact hewd

/-- C8 witness: the synthetic WAV with `sampleRate = 16000`,
`byteRate = 32000`, `dataSize = 64000` resolves to exactly 2 seconds,
marked exact. -/
theorem C8_wav_exact_witness :
    fileExtension "speech.wav" = "wav" ∧ (0 : ℕ) < 16000 ∧ (0 : ℕ) < 32000 ∧
    extractDuration (mkWav 16000 32000 64000) "speech.wav" =
      { duration := 2, isEstimated := false } := by
  have h := C8_wav_exact 16000 32000 64000 "speech.wav" (by decide)
    (by decide) (by decide) (by decide) (by decide) (by decide)
  have hc : (((64000 : ℕ) : ℚ) / ((32000 : ℕ) : ℚ)) = 2 := by norm_num
  have hr : jsRound (2 : ℚ) = 2 := by
    unfold jsRound
    rw [show ((2 : ℚ) + 1 / 2) = 5 / 2 by norm_num]
    rw [Int.floor_eq_iff] <;> norm_num
  refine ⟨by decide, by decide, by decide, ?_⟩
  rw [h, hc, hr]
  norm_num


/-- Passing over a deleted match: the skip phase of `rfkGo` with `emit` off
is scanning the rest of the string (helper). -/
theorem rfkGo_del_skip (m : Matcher) (k : ℕ) :
    ∀ (skip : ℕ) (cs : Chars), rfkGo m skip false k true cs =
      replaceFirstK m k true (cs.drop skip)
  | 0, cs => rfl
  | skip + 1, [] => rfl
  | skip + 1, c :: cs => by
    show rfkGo m (skip + 1) false k true (c :: cs) = _
    rw [show rfkGo m (skip + 1) false k true (c :: cs) =
      rfkGo m skip false k true cs from by simp [rfkGo]]
    rw [rfkGo_del_skip m k skip cs]
    rfl

/-- Passing over a kept match: the skip phase of `rfkGo` with `emit` on
copies the matched characters (helper). -/
theorem rfkGo_keep_skip (m : Matcher) :
    ∀ (skip : ℕ) (cs : Chars), rfkGo m skip true 0 true cs =
      cs.take skip ++ replaceFirstK m 0 true (cs.drop skip)
  | 0, cs => by cases cs <;> rfl
  | skip + 1, [] => rfl
  | skip + 1, c :: cs => by
    rw [show rfkGo m (skip + 1) true 0 true (c :: cs) =
      c :: rfkGo m skip true 0 true cs from by simp [rfkGo]]
    rw [rfkGo_keep_skip m skip cs]
    rfl

/-- The skip phase of `scanPosGo` scans the rest of the string at the
shifted position (helper). -/
theorem scanPosGo_skip (m : Matcher) :
    ∀ (skip : ℕ) (cs : Chars) (a : ℕ), scanPosGo m skip true cs a =
      scanPos m true (cs.drop skip) (a + skip)
  | 0, cs, a => by simp [scanPos]
  | skip + 1, [], a => rfl
  | skip + 1, c :: cs, a => by
    rw [show scanPosGo m (skip + 1) true (c :: cs) a =
      scanPosGo m skip true cs (a + 1) from by simp [scanPosGo]]
    rw [scanPosGo_skip m skip cs (a + 1)]
    simp [scanPos]
    congr 1
    omega

/-- The skip phase of `delSegsGo` deletes the remaining segment characters
(helper). -/
theorem delSegsGo_skip :
    ∀ (segs : List (ℕ × ℕ)) (skip : ℕ) (abs : ℕ) (s : Chars),
      delSegsGo segs skip abs s = delSegs segs (abs + skip) (s.drop skip)
  | segs, 0, abs, s => by simp [delSegs]
  | segs, skip + 1, abs, [] => by
    cases segs with
    | nil => rfl
    | cons hd tl => cases hd; rfl
  | segs, skip + 1, abs, c :: cs => by
    rw [show delSegsGo segs (skip + 1) abs (c :: cs) =
      delSegsGo segs skip (abs + 1) cs from by
        cases segs with
        | nil => rfl
        | cons hd tl => cases hd; rfl]
    rw [delSegsGo_skip segs skip (abs + 1) cs]
    simp [delSegs]
    congr 1
    omega

/-- Composition of position shifts (helper). -/
theorem shiftComp (a : ℕ) (l : List (ℕ × ℕ)) :
    (l.map (fun q => (q.1 + 1, q.2))).map (fun q => (q.1 + a, q.2)) =
    l.map (fun q => (q.1 + (a + 1), q.2)) := by
  rw [List.map_map]
  refine List.map_congr_left ?_
  intro q _
  simp [Function.comp, Prod.ext_iff]
  omega

/-- Match positions from base `a` are the positions from base 0 shifted by
`a` (helper). -/
theorem scanPosGo_shift (m : Matcher) :
    ∀ (s : Chars) (skip : ℕ) (b : Bool) (a : ℕ),
      scanPosGo m skip b s a = (scanPosGo m skip b s 0).map (fun q => (q.1 + a, q.2))
  | [], skip, b, a => by cases skip <;> rfl
  | c :: cs, skip + 1, b, a => by
    rw [show scanPosGo m (skip + 1) b (c :: cs) a = scanPosGo m skip true cs (a + 1)
      from by simp [scanPosGo]]
    rw [show scanPosGo m (skip + 1) b (c :: cs) 0 = scanPosGo m skip true cs 1
      from by simp [scanPosGo]]
    rw [scanPosGo_shift m cs skip true (a + 1), scanPosGo_shift m cs skip true 1,
      shiftComp]
  | c :: cs, 0, b, a => by
    cases hm : m b (c :: cs) with
    | none =>
      rw [show scanPosGo m 0 b (c :: cs) a = scanPosGo m 0 (isWordChar c) cs (a + 1)
        from by rw [scanPosGo, hm]]
      rw [show scanPosGo m 0 b (c :: cs) 0 = scanPosGo m 0 (isWordChar c) cs 1
        from by rw [scanPosGo, hm]]
      rw [scanPosGo_shift m cs 0 (isWordChar c) (a + 1),
        scanPosGo_shift m cs 0 (isWordChar c) 1, shiftComp]
    | some nn =>
      cases nn with
      | zero =>
        rw [show scanPosGo m 0 b (c :: cs) a = scanPosGo m 0 (isWordChar c) cs (a + 1)
          from by rw [scanPosGo, hm]]
        rw [show scanPosGo m 0 b (c :: cs) 0 = scanPosGo m 0 (isWordChar c) cs 1
          from by rw [scanPosGo, hm]]
        rw [scanPosGo_shift m cs 0 (isWordChar c) (a + 1),
          scanPosGo_shift m cs 0 (isWordChar c) 1, shiftComp]
      | succ n =>
        rw [show scanPosGo m 0 b (c :: cs) a = (a, n + 1) :: scanPosGo m n true cs (a + 1)
          from by rw [scanPosGo, hm]]
        rw [show scanPosGo m 0 b (c :: cs) 0 = (0, n + 1) :: scanPosGo m n true cs 1
          from by rw [scanPosGo, hm]]
        rw [scanPosGo_shift m cs n true (a + 1), scanPosGo_shift m cs n true 1]
        simp only [List.map_cons, shiftComp]
        simp

/-- Deleting segments is invariant under a uniform shift of segment
positions and base offset (helper). -/
theorem delSegsGo_shift (d : ℕ) :
    ∀ (s : Chars) (segs : List (ℕ × ℕ)) (skip abs : ℕ),
      delSegsGo (segs.map (fun q => (q.1 + d, q.2))) skip (abs + d) s =
        delSegsGo segs skip abs s
  | [], segs, skip, abs => by
    cases segs with
    | nil => cases skip <;> rfl
    | cons hd tl => cases hd; cases skip <;> rfl
  | c :: cs, segs, skip + 1, abs => by
    rw [show delSegsGo (segs.map (fun q => (q.1 + d, q.2))) (skip + 1) (abs + d) (c :: cs) =
        delSegsGo (segs.map (fun q => (q.1 + d, q.2))) skip (abs + d + 1) cs from by
      cases hsm : segs.map (fun q => (q.1 + d, q.2)) with
      | nil => rfl
      | cons hd tl => cases hd; rfl]
    rw [show delSegsGo segs (skip + 1) abs (c :: cs) = delSegsGo segs skip (abs + 1) cs from by
      cases segs with
      | nil => rfl
      | cons hd tl => cases hd; rfl]
    rw [show abs + d + 1 = (abs + 1) + d from by omega]
    exact delSegsGo_shift d cs segs skip (abs + 1)
  | c :: cs, [], 0, abs => rfl
  | c :: cs, (p, l) :: rest, 0, abs => by
    by_cases hp : abs = p
    · subst hp
      rw [show delSegsGo (((abs, l) :: rest).map (fun q => (q.1 + d, q.2))) 0 (abs + d) (c :: cs) =
          delSegsGo (rest.map (fun q => (q.1 + d, q.2))) (l - 1) (abs + d + 1) cs from by
        simp [delSegsGo]]
      rw [show delSegsGo ((abs, l) :: rest) 0 abs (c :: cs) =
          delSegsGo rest (l - 1) (abs + 1) cs from by simp [delSegsGo]]
      rw [show abs + d + 1 = (abs + 1) + d from by omega]
      exact delSegsGo_shift d cs rest (l - 1) (abs + 1)
    · have hp' : ¬ (abs + d = p + d) := by omega
      rw [show delSegsGo (((p, l) :: rest).map (fun q => (q.1 + d, q.2))) 0 (abs + d) (c :: cs) =
          c :: delSegsGo (((p, l) :: rest).map (fun q => (q.1 + d, q.2))) 0 (abs + d + 1) cs from by
        simp only [List.map_cons]
        rw [delSegsGo, if_neg hp']]
      rw [show delSegsGo ((p, l) :: rest) 0 abs (c :: cs) =
          c :: delSegsGo ((p, l) :: rest) 0 (abs + 1) cs from by
        rw [delSegsGo, if_neg hp]]
      rw [show abs + d + 1 = (abs + 1) + d from by omega]
      rw [delSegsGo_shift d cs ((p, l) :: rest) 0 (abs + 1)]

/-- With an exhausted budget, the stateful replace callback returns every
match unchanged: `replaceFirstK m 0` is the identity (helper). -/
theorem rfk_zero (m : Matcher) : ∀ (s : Chars) (b : Bool), replaceFirstK m 0 b s = s
  | [], _ => rfl
  | c :: cs, b => by
    cases hm : m b (c :: cs) with
    | none =>
      rw [show replaceFirstK m 0 b (c :: cs) =
          c :: replaceFirstK m 0 (isWordChar c) cs from by
        unfold replaceFirstK
        rw [rfkGo, hm]]
      rw [rfk_zero m cs (isWordChar c)]
    | some nn =>
      cases nn with
      | zero =>
        rw [show replaceFirstK m 0 b (c :: cs) =
            c :: replaceFirstK m 0 (isWordChar c) cs from by
          unfold replaceFirstK
          rw [rfkGo, hm]]
        rw [rfk_zero m cs (isWordChar c)]
      | succ n =>
        rw [show replaceFirstK m 0 b (c :: cs) = c :: rfkGo m n true 0 true cs from by
          unfold replaceFirstK
          rw [rfkGo, hm]]
        rw [rfkGo_keep_skip m n cs, rfk_zero m (cs.drop n) true, List.take_append_drop]
termination_by s _ => s.length
decreasing_by
  all_goals simp [List.length_drop]
  all_goals try omega
  all_goals exact Nat.lt_succ_of_le (Nat.sub_le _ _)

/-- Deleting segments that all start at position 1 or later leaves the head
character in place (helper). -/
theorem delSegs_shift1_cons (c : Char) (cs : Chars) (X : List (ℕ × ℕ)) :
    delSegsGo (X.map (fun q => (q.1 + 1, q.2))) 0 0 (c :: cs) =
      c :: delSegsGo X 0 0 cs := by
  have h0 : ∀ s : Chars, delSegsGo [] 0 0 s = s := fun s => by cases s <;> rfl
  cases X with
  | nil => simp only [List.map_nil]; rw [h0, h0]
  | cons hd tl =>
    obtain ⟨p, l⟩ := hd
    simp only [List.map_cons]
    rw [delSegsGo, if_neg (by omega)]
    have h := delSegsGo_shift 1 cs ((p, l) :: tl) 0 0
    simp only [List.map_cons] at h
    rw [show (0 : ℕ) + 1 = 1 from rfl] at h
    rw [h]

/-- The stateful replace of the discourse-marker pass deletes exactly the
first `k` matches of the left-to-right scan: it equals splicing out the
first `k` `(position, length)` match segments, every later occurrence and
all other characters kept verbatim in place. -/
theorem replaceFirstK_eq_delSegs (m : Matcher) :
    ∀ (s : Chars) (b : Bool) (k : ℕ),
      replaceFirstK m k b s = delSegs ((scanPos m b s 0).take k) 0 s
  | [], b, k => by cases k <;> rfl
  | c :: cs, b, k => by
    cases hm : m b (c :: cs) with
    | none =>
      rw [show replaceFirstK m k b (c :: cs) =
          c :: replaceFirstK m k (isWordChar c) cs from by
        unfold replaceFirstK
        rw [rfkGo, hm]]
      rw [show scanPos m b (c :: cs) 0 = scanPosGo m 0 (isWordChar c) cs 1 from by
        unfold scanPos
        rw [scanPosGo, hm]]
      rw [scanPosGo_shift m cs 0 (isWordChar c) 1]
      show _ = delSegsGo _ 0 0 _
      rw [← List.map_take, delSegs_shift1_cons]
      rw [replaceFirstK_eq_delSegs m cs (isWordChar c) k]
      rfl
    | some nn =>
      cases nn with
      | zero =>
        rw [show replaceFirstK m k b (c :: cs) =
            c :: replaceFirstK m k (isWordChar c) cs from by
          unfold replaceFirstK
          rw [rfkGo, hm]]
        rw [show scanPos m b (c :: cs) 0 = scanPosGo m 0 (isWordChar c) cs 1 from by
          unfold scanPos
          rw [scanPosGo, hm]]
        rw [scanPosGo_shift m cs 0 (isWordChar c) 1]
        show _ = delSegsGo _ 0 0 _
        rw [← List.map_take, delSegs_shift1_cons]
        rw [replaceFirstK_eq_delSegs m cs (isWordChar c) k]
        rfl
      | succ n =>
        cases k with
        | zero =>
          rw [rfk_zero m (c :: cs) b]
          rfl
        | succ k' =>
          rw [show replaceFirstK m (k' + 1) b (c :: cs) = rfkGo m n false k' true cs from by
            unfold replaceFirstK
            rw [rfkGo, hm]]
          rw [rfkGo_del_skip m k' n cs]
          rw [show scanPos m b (c :: cs) 0 = (0, n + 1) :: scanPosGo m n true cs 1 from by
            unfold scanPos
            rw [scanPosGo, hm]]
          rw [scanPosGo_skip m n cs 1]
          rw [show scanPos m true (cs.drop n) (1 + n) =
              (scanPos m true (cs.drop n) 0).map (fun q => (q.1 + (1 + n), q.2)) from
            scanPosGo_shift m (cs.drop n) 0 true (1 + n)]
          rw [List.take_succ_cons]
          show _ = delSegsGo ((0, n + 1) :: _) 0 0 (c :: cs)
          rw [delSegsGo, if_pos rfl]
          rw [show n + 1 - 1 = n from by omega]
          rw [delSegsGo_skip _ n 1 cs]
          rw [← List.map_take]
          have hsh := delSegsGo_shift (1 + n) (cs.drop n)
            ((scanPos m true (cs.drop n) 0).take k') 0 0
          rw [show (0 : ℕ) + (1 + n) = 1 + n from by omega] at hsh
          unfold delSegs
          rw [hsh]
          have ih := replaceFirstK_eq_delSegs m (cs.drop n) true k'
          unfold delSegs at ih
          exact ih
termination_by s _ _ => s.length
decreasing_by
  all_goals simp [List.length_drop]
  all_goals try omega
  all_goals exact Nat.lt_succ_of_le (Nat.sub_le _ _)

/-- C9 (amended): in `removeFillerWords`, a discourse-marker word is
stripped only when it occurs *more than 4* times (3 or 4 occurrences,
though above the keep budget of 2, are left untouched), and then it is the
*earliest* `count - 2` occurrences that are removed — the match segments of
the left-to-right scan — keeping the *last* 2 occurrences, for every input
text.  (The claim stated the earliest occurrences are kept and that every
occurrence beyond the budget is stripped; `C9_counterexample` refutes
both.) -/
theorem C9_discourse_budget (w : String) (t : Chars) :
    (countM (wordPat w) false t ≤ 4 → stripDiscourse t w = t) ∧
    (4 < countM (wordPat w) false t →
      stripDiscourse t w =
        delSegs ((scanPos (wordPat w) false t 0).take
          (countM (wordPat w) false t - 2)) 0 t) := by
  constructor
  · intro h
    simp only [stripDiscourse]
    rw [if_neg (by omega)]
  · intro h
    simp only [stripDiscourse]
    rw [if_pos h]
    exact replaceFirstK_eq_delSegs (wordPat w) t false _

/-- C9 counterexample: on `"a well b well c well d well e well"` (five
`well`s) the kept occurrences are the *last* two — the output is
`"a b c d well e well"`, not the `"a well b well c d e"` the claim
predicts; and with three `well`s (more than the keep budget of 2) nothing
is stripped at all because the trigger is `count > 4`. -/
theorem C9_counterexample :
    removeFillerWords "a well b well c well d well e well" = "a b c d well e well" ∧
    "a b c d well e well" ≠ "a well b well c d e" ∧
    removeFillerWords "a well b well c well" = "a well b well c well" :=
  ⟨by decide, by decide, by decide⟩

/-- C9 witness: the amended theorem applied to the five-`well` and
three-`well` inputs. -/
theorem C9_discourse_budget_witness :
    countM (wordPat "well") false ("a well b well c well".data) ≤ 4 ∧
    stripDiscourse ("a well b well c well".data) "well" = ("a well b well c well".data) ∧
    4 < countM (wordPat "well") false ("a well b well c well d well e well".data) ∧
    stripDiscourse ("a well b well c well d well e well".data) "well" =
      delSegs ((scanPos (wordPat "well") false
          ("a well b well c well d well e well".data) 0).take
        (countM (wordPat "well") false
          ("a well b well c well d well e well".data) - 2)) 0
        ("a well b well c well d well e well".data) :=
  ⟨by decide,
   (C9_discourse_budget "well" ("a well b well c well".data)).1 (by decide),
   by decide,
   (C9_discourse_budget "well" ("a well b well c well d well e well".data)).2 (by decide)⟩

end EchoScribe
